import Mathlib

/-!
Shallow embedding of the hedge-anything risk engine.

The numeric domain of the engine (JavaScript numbers) is modelled by the
rationals, so every arithmetic step of the source is exact here.  The two
places where the source leaves exact rational arithmetic are modelled
explicitly:

* the square-root routine used by the optimizers is taken as an explicit
  function parameter, since the theorems below hold for every choice of it;
* the loop variable of the emotional optimizer accumulates the binary64
  value nearest to 0.05, so that loop is modelled with an explicit
  round-to-nearest-even operation on binary64 floating-point values.

The process-wide random source is modelled as an explicit stream of draws,
one rational per simulated Bernoulli trial, universally quantified in the
theorems.
-/

/-- Result record of calculateHedging in src/lib/hedging.ts. -/
structure HedgingCalculation where
  shares : ℚ
  premium : ℚ
  hedgedOutcomeIfEventTrue : ℚ
  hedgedOutcomeIfEventFalse : ℚ
  unhedgedOutcomeIfEventTrue : ℚ
  unhedgedOutcomeIfEventFalse : ℚ
  deriving Repr, DecidableEq

/-- Result record of runComparisonSimulation in src/lib/hedging.ts. -/
structure ComparisonResults where
  hedged : List ℚ
  unhedged : List ℚ
  deriving Repr, DecidableEq

/-- Result record of calculateEmotionalHedging in src/lib/hedging.ts. -/
structure EmotionalHedgingCalculation where
  shares : ℚ
  premium : ℚ
  outcomeIfTeamWins : ℚ
  outcomeIfTeamLoses : ℚ
  unhedgedOutcomeIfTeamWins : ℚ
  unhedgedOutcomeIfTeamLoses : ℚ
  deriving Repr, DecidableEq

/-- Result record of calculateStats in src/lib/stats.ts. -/
structure SimulationStats where
  mean : ℚ
  median : ℚ
  worstCase10 : ℚ
  probabilityPositive : ℚ
  deriving Repr, DecidableEq

/-- Hedging parameters for realistic expense scenarios, translated from
calculateHedging in src/lib/hedging.ts. -/
def calculateHedging (baselineExpense adverseExpense hedgeRatio yesPrice feeRate : ℚ) :
    HedgingCalculation :=
  let payout := 1 - feeRate
  let additionalExpense := adverseExpense - baselineExpense
  let shares := additionalExpense * hedgeRatio / payout
  let premium := shares * yesPrice
  { shares := shares
    premium := premium
    hedgedOutcomeIfEventTrue := -adverseExpense - premium + shares * payout
    hedgedOutcomeIfEventFalse := -baselineExpense - premium
    unhedgedOutcomeIfEventTrue := -adverseExpense
    unhedgedOutcomeIfEventFalse := -baselineExpense }

/-- Emotional hedging for sports or single events, translated from
calculateEmotionalHedging in src/lib/hedging.ts. -/
def calculateEmotionalHedging (ticketCost desiredConsolation hedgeRatio yesPrice feeRate : ℚ) :
    EmotionalHedgingCalculation :=
  let payout := 1 - feeRate
  let targetConsolation := desiredConsolation * hedgeRatio
  let shares := targetConsolation / payout
  let premium := shares * yesPrice
  { shares := shares
    premium := premium
    outcomeIfTeamWins := -ticketCost - premium
    outcomeIfTeamLoses := -ticketCost + shares * payout - premium
    unhedgedOutcomeIfTeamWins := -ticketCost
    unhedgedOutcomeIfTeamLoses := -ticketCost }

/-- JavaScript array indexing with a (possibly negative) integer index:
out-of-range access yields undefined, modelled as none. -/
def jsIndex (l : List ℚ) (i : ℤ) : Option ℚ :=
  if 0 ≤ i then l.get? i.toNat else none

/-- Percentile from a copy-sorted array using linear interpolation, translated
from percentile in src/lib/stats.ts.  A result of none models the undefined or
NaN value the source produces when an array access is out of range; the source
performs no emptiness check and cannot raise an error. -/
def percentile (arr : List ℚ) (p : ℚ) : Option ℚ :=
  let sorted := List.insertionSort (· ≤ ·) arr
  let index : ℚ := p / 100 * ((sorted.length : ℚ) - 1)
  if index = (⌊index⌋ : ℚ) then
    jsIndex sorted ⌊index⌋
  else
    let lower := ⌊index⌋
    let upper := ⌈index⌉
    let weight : ℚ := index - (lower : ℚ)
    match jsIndex sorted lower, jsIndex sorted upper with
    | some lo, some hi => some (lo * (1 - weight) + hi * weight)
    | _, _ => none

/-- Totalized percentile used by the statistics record; the default is never
reached on the non-empty inputs calculateStats feeds it. -/
def percentileD (arr : List ℚ) (p : ℚ) : ℚ :=
  (percentile arr p).getD 0

/-- Statistics of a non-empty sample, the formulas of calculateStats in
src/lib/stats.ts after its emptiness guard. -/
def statsOf (results : List ℚ) : SimulationStats :=
  { mean := results.sum / (results.length : ℚ)
    median := percentileD results 50
    worstCase10 := percentileD results 10
    probabilityPositive :=
      ((results.countP fun v => decide (0 < v)) : ℚ) / (results.length : ℚ) }

/-- Error message thrown by calculateStats on an empty sample. -/
def emptyStatsMsg : String :=
  "Cannot calculate statistics for empty results array"

/-- Comprehensive statistics from simulation results, translated from
calculateStats in src/lib/stats.ts; the thrown error is modelled by the
error branch of Except. -/
def calculateStats (results : List ℚ) : Except String SimulationStats :=
  if results.isEmpty then .error emptyStatsMsg
  else .ok (statsOf results)

/-- Monte Carlo comparison of hedged and unhedged scenarios, translated from
runComparisonSimulation in src/lib/hedging.ts.  The draw rand run month is the
uniform sample the source takes for that run and month; hedged and unhedged
totals of a run consume the same draw, exactly as in the source loop. -/
def runComparisonSimulation (baselineExpense adverseExpense hedgeRatio yesPrice : ℚ)
    (months : ℕ) (feeRate : ℚ) (runs : ℕ) (rand : ℕ → ℕ → ℚ) : ComparisonResults :=
  let q := calculateHedging baselineExpense adverseExpense hedgeRatio yesPrice feeRate
  { hedged := (List.range runs).map fun run =>
      (((List.range months).map fun month =>
        if rand run month < yesPrice then q.hedgedOutcomeIfEventTrue
        else q.hedgedOutcomeIfEventFalse)).sum
    unhedged := (List.range runs).map fun run =>
      (((List.range months).map fun month =>
        if rand run month < yesPrice then q.unhedgedOutcomeIfEventTrue
        else q.unhedgedOutcomeIfEventFalse)).sum }

/-- Monte Carlo simulation wrapper returning only the hedged sequence,
translated from runMonteCarloSimulation in src/lib/hedging.ts. -/
def runMonteCarloSimulation (baselineExpense adverseExpense hedgeRatio yesPrice : ℚ)
    (months : ℕ) (feeRate : ℚ) (runs : ℕ) (rand : ℕ → ℕ → ℚ) : List ℚ :=
  (runComparisonSimulation baselineExpense adverseExpense hedgeRatio yesPrice
    months feeRate runs rand).hedged

/-- Metric bundle tracked for the best candidate by both optimizers. -/
structure OptMetrics where
  winPercentage : ℚ
  worstCaseImprovement : ℚ
  volatilityReduction : ℚ
  sharpeRatio : ℚ
  maxDrawdownReduction : ℚ
  deriving Repr, DecidableEq

/-- Result record of both optimizers. -/
structure OptimizationResult where
  optimalRatio : ℚ
  winPercentage : ℚ
  worstCaseImprovement : ℚ
  volatilityReduction : ℚ
  sharpeRatio : ℚ
  maxDrawdownReduction : ℚ
  riskScore : ℚ
  deriving Repr, DecidableEq

/-- Best-so-far state of an optimizer sweep.  A bestRiskScore of none models
the initial bestRiskScore of negative infinity in the source, which every
finite candidate score strictly exceeds. -/
structure SweepAcc where
  bestRatio : ℚ
  bestRiskScore : Option ℚ
  bestMetrics : OptMetrics
  deriving Repr, DecidableEq

/-- One iteration of the best-candidate update in the optimizer loops: the
best state is replaced exactly when the candidate score is strictly greater
than the best score seen so far. -/
def sweepStep (acc : SweepAcc) (c : ℚ × ℚ × OptMetrics) : SweepAcc :=
  match acc.bestRiskScore with
  | none => ⟨c.1, some c.2.1, c.2.2⟩
  | some b => if b < c.2.1 then ⟨c.1, some c.2.1, c.2.2⟩ else acc

/-- Optimizer sweep over a list of candidates, each given as
(ratio, riskScore, metrics). -/
def sweepBest (cands : List (ℚ × ℚ × OptMetrics)) (init : SweepAcc) : SweepAcc :=
  cands.foldl sweepStep init

/-- Largest element of a list, as the spread Math.max of the source; the
source value on an empty list is negative infinity, which no caller reaches. -/
def listMax : List ℚ → ℚ
  | [] => 0
  | x :: xs => xs.foldl max x

/-- Smallest element of a list, as the spread Math.min of the source. -/
def listMin : List ℚ → ℚ
  | [] => 0
  | x :: xs => xs.foldl min x

/-- Sample standard deviation as computed inline by findOptimalHedgeRatio:
the square root of the mean (over the runs parameter) of squared deviations.
The square-root routine is an explicit parameter of the embedding. -/
def stdDev (sqrt : ℚ → ℚ) (xs : List ℚ) (runs : ℕ) (mean : ℚ) : ℚ :=
  sqrt ((xs.map fun v => (v - mean) ^ 2).sum / (runs : ℚ))

/-- Candidate evaluation of findOptimalHedgeRatio for index i: the tested
ratio i / steps, its composite risk score, and its metric bundle.  The
baseline unhedged simulation is the one the source computes once before the
loop (draw stream rand 0); candidate i consumes draw stream rand (i + 1). -/
def optimalCandidate (baselineExpense adverseExpense yesPrice : ℚ) (months : ℕ)
    (feeRate : ℚ) (steps runs : ℕ) (sqrt : ℚ → ℚ) (rand : ℕ → ℕ → ℕ → ℚ)
    (i : ℕ) : ℚ × ℚ × OptMetrics :=
  let unhedgedResults := (runComparisonSimulation baselineExpense adverseExpense 0
    yesPrice months feeRate runs (rand 0)).unhedged
  let unhedgedStats := statsOf unhedgedResults
  let ratio : ℚ := (i : ℚ) / (steps : ℚ)
  let results := runComparisonSimulation baselineExpense adverseExpense ratio
    yesPrice months feeRate runs (rand (i + 1))
  let hedgedStats := statsOf results.hedged
  let wins := (results.hedged.zip results.unhedged).countP fun p => decide (p.2 < p.1)
  let winPercentage := ((wins : ℚ) / (runs : ℚ)) * 100
  let worstCaseImprovement := hedgedStats.worstCase10 - unhedgedStats.worstCase10
  let hedgedStdDev := stdDev sqrt results.hedged runs hedgedStats.mean
  let unhedgedStdDev := stdDev sqrt unhedgedResults runs unhedgedStats.mean
  let volatilityReduction :=
    if 0 < unhedgedStdDev then max 0 ((unhedgedStdDev - hedgedStdDev) / unhedgedStdDev * 100)
    else 0
  let excessReturn := hedgedStats.mean - unhedgedStats.mean
  let sharpeRatio := if 1 / 100 < hedgedStdDev then excessReturn / hedgedStdDev else 0
  let hedgedRange := listMax results.hedged - listMin results.hedged
  let unhedgedRange := listMax unhedgedResults - listMin unhedgedResults
  let maxDrawdownReduction :=
    if 0 < unhedgedRange then max 0 ((unhedgedRange - hedgedRange) / unhedgedRange * 100)
    else 0
  let worstCaseImprovementPct :=
    if 0 < |unhedgedStats.worstCase10| then worstCaseImprovement / |unhedgedStats.worstCase10| * 100
    else 0
  let riskScore := worstCaseImprovementPct * (7 / 10) + volatilityReduction * (2 / 10) +
    maxDrawdownReduction * (1 / 10)
  (ratio, riskScore,
    ⟨winPercentage, worstCaseImprovement, volatilityReduction, sharpeRatio, maxDrawdownReduction⟩)

/-- Risk-adjusted hedge-ratio optimizer, translated from findOptimalHedgeRatio
in src/lib/hedging.ts.  The source initializes the sharpe metric of the
sentinel state to negative infinity; the sentinel is never returned because
the sweep always evaluates candidate 0, so it is modelled by zeros here. -/
def findOptimalHedgeRatio (baselineExpense adverseExpense yesPrice : ℚ) (months : ℕ)
    (feeRate : ℚ) (steps runs : ℕ) (sqrt : ℚ → ℚ) (rand : ℕ → ℕ → ℕ → ℚ) :
    OptimizationResult :=
  let init : SweepAcc := ⟨0, none, ⟨0, 0, 0, 0, 0⟩⟩
  let acc := sweepBest ((List.range (steps + 1)).map
    (optimalCandidate baselineExpense adverseExpense yesPrice months feeRate steps runs
      sqrt rand)) init
  { optimalRatio := acc.bestRatio
    winPercentage := acc.bestMetrics.winPercentage
    worstCaseImprovement := acc.bestMetrics.worstCaseImprovement
    volatilityReduction := acc.bestMetrics.volatilityReduction
    sharpeRatio := acc.bestMetrics.sharpeRatio
    maxDrawdownReduction := acc.bestMetrics.maxDrawdownReduction
    riskScore := acc.bestRiskScore.getD 0 }

/-- Round a positive rational to the nearest binary64 value (ties to even),
expressed exactly as a rational: scale into the 53-bit significand range
using the binary exponent, round the significand, and scale back. -/
def roundB64Pos (q : ℚ) : ℚ :=
  let e := Int.log 2 q
  let scale : ℚ := 2 ^ (52 - e)
  let m := q * scale
  let fl := ⌊m⌋
  let fr := m - (fl : ℚ)
  let n : ℤ :=
    if fr < 1 / 2 then fl
    else if 1 / 2 < fr then fl + 1
    else if fl % 2 = 0 then fl else fl + 1
  (n : ℚ) / scale

/-- Round a rational to the nearest binary64 value (ties to even). -/
def roundB64 (q : ℚ) : ℚ :=
  if q < 0 then -roundB64Pos (-q) else if q = 0 then 0 else roundB64Pos q

/-- Ratio sweep of findOptimalEmotionalHedgeRatio: the source loop starts at
the double literal 0.1, adds the double literal 0.05 with binary64 rounding
after each iteration, and keeps iterating while the accumulated loop variable
is at most 1.  The fuel bounds the iteration count; the increment exceeds
1/21, so 32 steps more than cover the interval from 0.1 to above 1. -/
def emotionalRatioSweep : ℕ → ℚ → List ℚ
  | 0, _ => []
  | fuel + 1, r =>
    if r ≤ 1 then r :: emotionalRatioSweep fuel (roundB64 (r + roundB64 (1 / 20)))
    else []

/-- Candidate ratios actually visited by the emotional optimizer loop. -/
def emotionalCandidates : List ℚ :=
  emotionalRatioSweep 32 (roundB64 (1 / 10))

/-- Result record of findOptimalEmotionalHedgeRatio.  In the source the
riskScore field is a JavaScript number that can hold the -Infinity sentinel
itself — it is reported unchanged when no candidate is ever adopted — so it
is modelled as an optional rational, none standing for -Infinity. -/
structure EmotionalOptimizationResult where
  optimalRatio : ℚ
  winPercentage : ℚ
  worstCaseImprovement : ℚ
  volatilityReduction : ℚ
  sharpeRatio : ℚ
  maxDrawdownReduction : ℚ
  riskScore : Option ℚ
  deriving Repr, DecidableEq

/-- One iteration of the best-candidate update in the emotional optimizer,
whose candidate risk score can be the NaN produced by its unguarded division
(modelled as none): every comparison against NaN is false in the source, so a
none score never replaces the best state; a numeric score replaces it exactly
when it is strictly greater (the sentinel none best is below every number). -/
def sweepStepE (acc : SweepAcc) (c : ℚ × Option ℚ × OptMetrics) : SweepAcc :=
  match c.2.1, acc.bestRiskScore with
  | none, _ => acc
  | some s, none => ⟨c.1, some s, c.2.2⟩
  | some s, some b => if b < s then ⟨c.1, some s, c.2.2⟩ else acc

/-- Emotional optimizer sweep over candidates whose score may be NaN. -/
def sweepBestE (cands : List (ℚ × Option ℚ × OptMetrics)) (init : SweepAcc) : SweepAcc :=
  cands.foldl sweepStepE init

/-- Sample standard deviation as computed inline by
findOptimalEmotionalHedgeRatio: the square root of the mean of squared
deviations from the sample mean, over the sample length. -/
def stdDevOf (sqrt : ℚ → ℚ) (xs : List ℚ) : ℚ :=
  sqrt ((xs.map fun v => (v - (statsOf xs).mean) ^ 2).sum / (xs.length : ℚ))

/-- Candidate evaluation of findOptimalEmotionalHedgeRatio for the candidate
at position idx of the sweep with the given ratio: the ratio, its composite
risk score, and its metric bundle.  Candidate idx consumes draw stream
rand idx, one draw per simulated event.  The volatility-reduction division
has no zero guard in the source: when both the denominator and the numerator
vanish it computes 0/0 = NaN, which poisons the whole risk score — modelled
as a none score.  When only the denominator vanishes the source divides a
negative numerator (for a real square root) to -Infinity, and the following
max with 0 yields 0, the same value the ℚ division convention produces. -/
def emotionalCandidate (ticketCost desiredConsolation yesPrice feeRate : ℚ)
    (sqrt : ℚ → ℚ) (rand : ℕ → ℕ → ℚ) (idx : ℕ) (ratio : ℚ) :
    ℚ × Option ℚ × OptMetrics :=
  let teamLossProbability := yesPrice
  let hedging := calculateEmotionalHedging ticketCost desiredConsolation ratio yesPrice feeRate
  let numSims := 1000
  let hedgedOutcomes := (List.range numSims).map fun i =>
    if rand idx i < teamLossProbability then hedging.outcomeIfTeamLoses
    else hedging.outcomeIfTeamWins
  let unhedgedOutcomes := (List.range numSims).map fun i =>
    if rand idx i < teamLossProbability then hedging.unhedgedOutcomeIfTeamLoses
    else hedging.unhedgedOutcomeIfTeamWins
  let hedgedStats := statsOf hedgedOutcomes
  let unhedgedStats := statsOf unhedgedOutcomes
  let worstCaseImprovement := hedgedStats.worstCase10 - unhedgedStats.worstCase10
  let hedgedStdDev := stdDevOf sqrt hedgedOutcomes
  let unhedgedStdDev := stdDevOf sqrt unhedgedOutcomes
  let volatilityReduction : Option ℚ :=
    if unhedgedStdDev = 0 ∧ unhedgedStdDev - hedgedStdDev = 0 then none
    else some (max 0 ((unhedgedStdDev - hedgedStdDev) / unhedgedStdDev * 100))
  let winPercentage :=
    (((hedgedOutcomes.zip unhedgedOutcomes).countP fun p => decide (p.2 < p.1) : ℚ) /
      (hedgedOutcomes.length : ℚ)) * 100
  let maxDrawdownReduction := max 0 (|unhedgedStats.worstCase10| - |hedgedStats.worstCase10|)
  let sharpeRatio := hedgedStats.mean / (if hedgedStdDev = 0 then 1 else hedgedStdDev)
  let riskScore : Option ℚ := volatilityReduction.map fun vr =>
    (worstCaseImprovement * (4 / 10) + vr * (3 / 10) +
      maxDrawdownReduction * (2 / 10) + sharpeRatio * 10 * (1 / 10)) -
      hedging.premium * (1 / 10)
  (ratio, riskScore,
    ⟨winPercentage, worstCaseImprovement, volatilityReduction.getD 0, sharpeRatio,
      maxDrawdownReduction⟩)

/-- Emotional hedge-ratio optimizer, translated from
findOptimalEmotionalHedgeRatio in src/lib/hedging.ts.  The sweep walks the
binary64 loop variable of the source; the initial best ratio is 0.5 and the
initial best score is the negative-infinity sentinel.  A candidate whose
risk score is NaN never passes the strictly-greater test, so when every
candidate scores NaN the initial ratio 0.5 and the sentinel score are
returned unchanged, exactly as in the source. -/
def findOptimalEmotionalHedgeRatio (ticketCost desiredConsolation yesPrice feeRate : ℚ)
    (sqrt : ℚ → ℚ) (rand : ℕ → ℕ → ℚ) : EmotionalOptimizationResult :=
  let init : SweepAcc := ⟨1 / 2, none, ⟨0, 0, 0, 0, 0⟩⟩
  let acc := sweepBestE (emotionalCandidates.enum.map fun p =>
    emotionalCandidate ticketCost desiredConsolation yesPrice feeRate sqrt rand p.1 p.2) init
  { optimalRatio := acc.bestRatio
    winPercentage := acc.bestMetrics.winPercentage
    worstCaseImprovement := acc.bestMetrics.worstCaseImprovement
    volatilityReduction := acc.bestMetrics.volatilityReduction
    sharpeRatio := acc.bestMetrics.sharpeRatio
    maxDrawdownReduction := acc.bestMetrics.maxDrawdownReduction
    riskScore := acc.bestRiskScore }

/-! Helper lemmas. -/

/-- Ceiling expressed through the floor of the negation, used to evaluate
ceilings of concrete rationals. -/
lemma ceil_as_floor (a : ℚ) : ⌈a⌉ = -⌊-a⌋ := by
  simp [Int.floor_neg]

/-- Characterization of the binary exponent used by the rounding model. -/
lemma intLog_eq_of {q : ℚ} {e : ℤ} (hq : 0 < q) (h1 : (2:ℚ) ^ e ≤ q)
    (h2 : q < (2:ℚ) ^ (e + 1)) : Int.log 2 q = e := by
  have h1' : ((2:ℕ):ℚ) ^ e ≤ q := by exact_mod_cast h1
  have h2' : q < ((2:ℕ):ℚ) ^ (e + 1) := by exact_mod_cast h2
  have l1 := (Int.zpow_le_iff_le_log one_lt_two hq).mp h1'
  have l2 := (Int.lt_zpow_iff_log_lt one_lt_two hq).mp h2'
  omega

/-- Unfolding of roundB64 on a positive input once its binary exponent is
pinned down. -/
lemma roundB64_pos_eval {q : ℚ} {e : ℤ} (hq : 0 < q) (h1 : (2:ℚ) ^ e ≤ q)
    (h2 : q < (2:ℚ) ^ (e + 1)) :
    roundB64 q =
      (((if q * 2 ^ (52 - e) - (⌊q * 2 ^ (52 - e)⌋ : ℚ) < 1 / 2 then ⌊q * 2 ^ (52 - e)⌋
        else if 1 / 2 < q * 2 ^ (52 - e) - (⌊q * 2 ^ (52 - e)⌋ : ℚ) then ⌊q * 2 ^ (52 - e)⌋ + 1
        else if ⌊q * 2 ^ (52 - e)⌋ % 2 = 0 then ⌊q * 2 ^ (52 - e)⌋
        else ⌊q * 2 ^ (52 - e)⌋ + 1) : ℤ) : ℚ) / 2 ^ (52 - e) := by
  rw [roundB64, if_neg (not_lt.mpr hq.le), if_neg hq.ne.symm]
  rw [roundB64Pos, intLog_eq_of hq h1 h2]

/-- Evaluation of roundB64 when the significand fraction is below one half. -/
lemma roundB64_eq_down (q : ℚ) (e n : ℤ) (hq : 0 < q) (h1 : (2:ℚ) ^ e ≤ q)
    (h2 : q < (2:ℚ) ^ (e + 1)) (hn : ⌊q * 2 ^ (52 - e)⌋ = n)
    (hlt : q * 2 ^ (52 - e) - (n : ℚ) < 1 / 2) :
    roundB64 q = (n : ℚ) / 2 ^ (52 - e) := by
  rw [roundB64_pos_eval hq h1 h2, hn, if_pos hlt]

/-- Evaluation of roundB64 when the significand fraction is above one half. -/
lemma roundB64_eq_up (q : ℚ) (e n : ℤ) (hq : 0 < q) (h1 : (2:ℚ) ^ e ≤ q)
    (h2 : q < (2:ℚ) ^ (e + 1)) (hn : ⌊q * 2 ^ (52 - e)⌋ = n)
    (hgt : 1 / 2 < q * 2 ^ (52 - e) - (n : ℚ)) :
    roundB64 q = ((n : ℚ) + 1) / 2 ^ (52 - e) := by
  rw [roundB64_pos_eval hq h1 h2, hn, if_neg (by linarith), if_pos hgt]
  push_cast
  ring_nf

/-- Evaluation of roundB64 at an exact tie with an even significand. -/
lemma roundB64_eq_tieEven (q : ℚ) (e n : ℤ) (hq : 0 < q) (h1 : (2:ℚ) ^ e ≤ q)
    (h2 : q < (2:ℚ) ^ (e + 1)) (hn : ⌊q * 2 ^ (52 - e)⌋ = n)
    (heq : q * 2 ^ (52 - e) - (n : ℚ) = 1 / 2) (hpar : n % 2 = 0) :
    roundB64 q = (n : ℚ) / 2 ^ (52 - e) := by
  rw [roundB64_pos_eval hq h1 h2, hn, if_neg (by rw [heq]; exact lt_irrefl _),
    if_neg (by rw [heq]; exact lt_irrefl _), if_pos hpar]

/-- Evaluation of roundB64 at an exact tie with an odd significand. -/
lemma roundB64_eq_tieOdd (q : ℚ) (e n : ℤ) (hq : 0 < q) (h1 : (2:ℚ) ^ e ≤ q)
    (h2 : q < (2:ℚ) ^ (e + 1)) (hn : ⌊q * 2 ^ (52 - e)⌋ = n)
    (heq : q * 2 ^ (52 - e) - (n : ℚ) = 1 / 2) (hpar : n % 2 = 1) :
    roundB64 q = ((n : ℚ) + 1) / 2 ^ (52 - e) := by
  rw [roundB64_pos_eval hq h1 h2, hn, if_neg (by rw [heq]; exact lt_irrefl _),
    if_neg (by rw [heq]; exact lt_irrefl _), if_neg (by omega)]
  push_cast
  ring_nf

/-- Binary64 value of the source literal 0.1. -/
lemma emoLit_c10 : roundB64 (1 / 10) = 3602879701896397 / 36028797018963968 := by
  rw [roundB64_eq_up (1 / 10) (-4) 7205759403792793 (by norm_num) (by norm_num) (by norm_num)
    (by norm_num) (by norm_num)]
  norm_num

/-- Binary64 value of the source literal 0.05. -/
lemma emoLit_c05 : roundB64 (1 / 20) = 3602879701896397 / 72057594037927936 := by
  rw [roundB64_eq_up (1 / 20) (-5) 7205759403792793 (by norm_num) (by norm_num) (by norm_num)
    (by norm_num) (by norm_num)]
  norm_num

/-- Unfolding of one kept iteration of the emotional ratio sweep. -/
lemma emotionalRatioSweep_cons (fuel : ℕ) (r r₁ : ℚ) (h : r ≤ 1)
    (hnext : roundB64 (r + 3602879701896397 / 72057594037927936) = r₁) :
    emotionalRatioSweep (fuel + 1) r = r :: emotionalRatioSweep fuel r₁ := by
  rw [emotionalRatioSweep, if_pos h, emoLit_c05, hnext]

/-- Unfolding of the terminating check of the emotional ratio sweep. -/
lemma emotionalRatioSweep_stop (fuel : ℕ) (r : ℚ) (h : ¬ r ≤ 1) :
    emotionalRatioSweep (fuel + 1) r = [] := by
  rw [emotionalRatioSweep, if_neg h]

/-- Binary64 accumulation step 0 of the emotional ratio sweep. -/
lemma emoStep0 : roundB64 (3602879701896397 / 36028797018963968 + 3602879701896397 / 72057594037927936) = 1351079888211149 / 9007199254740992 := by
  rw [show (3602879701896397 / 36028797018963968 : ℚ) + 3602879701896397 / 72057594037927936 = 10808639105689191 / 72057594037927936 by norm_num]
  rw [roundB64_eq_tieOdd (10808639105689191 / 72057594037927936) (-3) 5404319552844595 (by norm_num) (by norm_num) (by norm_num)
    (by norm_num) (by norm_num) (by decide)]
  norm_num

/-- Binary64 accumulation step 1 of the emotional ratio sweep. -/
lemma emoStep1 : roundB64 (1351079888211149 / 9007199254740992 + 3602879701896397 / 72057594037927936) = 3602879701896397 / 18014398509481984 := by
  rw [show (1351079888211149 / 9007199254740992 : ℚ) + 3602879701896397 / 72057594037927936 = 14411518807585589 / 72057594037927936 by norm_num]
  rw [roundB64_eq_tieEven (14411518807585589 / 72057594037927936) (-3) 7205759403792794 (by norm_num) (by norm_num) (by norm_num)
    (by norm_num) (by norm_num) (by decide)]
  norm_num

/-- Binary64 accumulation step 2 of the emotional ratio sweep. -/
lemma emoStep2 : roundB64 (3602879701896397 / 18014398509481984 + 3602879701896397 / 72057594037927936) = 1 / 4 := by
  rw [show (3602879701896397 / 18014398509481984 : ℚ) + 3602879701896397 / 72057594037927936 = 18014398509481985 / 72057594037927936 by norm_num]
  rw [roundB64_eq_down (18014398509481985 / 72057594037927936) (-2) 4503599627370496 (by norm_num) (by norm_num) (by norm_num)
    (by norm_num) (by norm_num)]
  norm_num

/-- Binary64 accumulation step 3 of the emotional ratio sweep. -/
lemma emoStep3 : roundB64 (1 / 4 + 3602879701896397 / 72057594037927936) = 5404319552844595 / 18014398509481984 := by
  rw [show (1 / 4 : ℚ) + 3602879701896397 / 72057594037927936 = 21617278211378381 / 72057594037927936 by norm_num]
  rw [roundB64_eq_down (21617278211378381 / 72057594037927936) (-2) 5404319552844595 (by norm_num) (by norm_num) (by norm_num)
    (by norm_num) (by norm_num)]
  norm_num

/-- Binary64 accumulation step 4 of the emotional ratio sweep. -/
lemma emoStep4 : roundB64 (5404319552844595 / 18014398509481984 + 3602879701896397 / 72057594037927936) = 3152519739159347 / 9007199254740992 := by
  rw [show (5404319552844595 / 18014398509481984 : ℚ) + 3602879701896397 / 72057594037927936 = 25220157913274777 / 72057594037927936 by norm_num]
  rw [roundB64_eq_down (25220157913274777 / 72057594037927936) (-2) 6305039478318694 (by norm_num) (by norm_num) (by norm_num)
    (by norm_num) (by norm_num)]
  norm_num

/-- Binary64 accumulation step 5 of the emotional ratio sweep. -/
lemma emoStep5 : roundB64 (3152519739159347 / 9007199254740992 + 3602879701896397 / 72057594037927936) = 7205759403792793 / 18014398509481984 := by
  rw [show (3152519739159347 / 9007199254740992 : ℚ) + 3602879701896397 / 72057594037927936 = 28823037615171173 / 72057594037927936 by norm_num]
  rw [roundB64_eq_down (28823037615171173 / 72057594037927936) (-2) 7205759403792793 (by norm_num) (by norm_num) (by norm_num)
    (by norm_num) (by norm_num)]
  norm_num

/-- Binary64 accumulation step 6 of the emotional ratio sweep. -/
lemma emoStep6 : roundB64 (7205759403792793 / 18014398509481984 + 3602879701896397 / 72057594037927936) = 2026619832316723 / 4503599627370496 := by
  rw [show (7205759403792793 / 18014398509481984 : ℚ) + 3602879701896397 / 72057594037927936 = 32425917317067569 / 72057594037927936 by norm_num]
  rw [roundB64_eq_down (32425917317067569 / 72057594037927936) (-2) 8106479329266892 (by norm_num) (by norm_num) (by norm_num)
    (by norm_num) (by norm_num)]
  norm_num

/-- Binary64 accumulation step 7 of the emotional ratio sweep. -/
lemma emoStep7 : roundB64 (2026619832316723 / 4503599627370496 + 3602879701896397 / 72057594037927936) = 9007199254740991 / 18014398509481984 := by
  rw [show (2026619832316723 / 4503599627370496 : ℚ) + 3602879701896397 / 72057594037927936 = 36028797018963965 / 72057594037927936 by norm_num]
  rw [roundB64_eq_down (36028797018963965 / 72057594037927936) (-2) 9007199254740991 (by norm_num) (by norm_num) (by norm_num)
    (by norm_num) (by norm_num)]
  norm_num

/-- Binary64 accumulation step 8 of the emotional ratio sweep. -/
lemma emoStep8 : roundB64 (9007199254740991 / 18014398509481984 + 3602879701896397 / 72057594037927936) = 4953959590107545 / 9007199254740992 := by
  rw [show (9007199254740991 / 18014398509481984 : ℚ) + 3602879701896397 / 72057594037927936 = 39631676720860361 / 72057594037927936 by norm_num]
  rw [roundB64_eq_down (39631676720860361 / 72057594037927936) (-1) 4953959590107545 (by norm_num) (by norm_num) (by norm_num)
    (by norm_num) (by norm_num)]
  norm_num

/-- Binary64 accumulation step 9 of the emotional ratio sweep. -/
lemma emoStep9 : roundB64 (4953959590107545 / 9007199254740992 + 3602879701896397 / 72057594037927936) = 5404319552844595 / 9007199254740992 := by
  rw [show (4953959590107545 / 9007199254740992 : ℚ) + 3602879701896397 / 72057594037927936 = 43234556422756757 / 72057594037927936 by norm_num]
  rw [roundB64_eq_up (43234556422756757 / 72057594037927936) (-1) 5404319552844594 (by norm_num) (by norm_num) (by norm_num)
    (by norm_num) (by norm_num)]
  norm_num

/-- Binary64 accumulation step 10 of the emotional ratio sweep. -/
lemma emoStep10 : roundB64 (5404319552844595 / 9007199254740992 + 3602879701896397 / 72057594037927936) = 5854679515581645 / 9007199254740992 := by
  rw [show (5404319552844595 / 9007199254740992 : ℚ) + 3602879701896397 / 72057594037927936 = 46837436124653157 / 72057594037927936 by norm_num]
  rw [roundB64_eq_up (46837436124653157 / 72057594037927936) (-1) 5854679515581644 (by norm_num) (by norm_num) (by norm_num)
    (by norm_num) (by norm_num)]
  norm_num

/-- Binary64 accumulation step 11 of the emotional ratio sweep. -/
lemma emoStep11 : roundB64 (5854679515581645 / 9007199254740992 + 3602879701896397 / 72057594037927936) = 6305039478318695 / 9007199254740992 := by
  rw [show (5854679515581645 / 9007199254740992 : ℚ) + 3602879701896397 / 72057594037927936 = 50440315826549557 / 72057594037927936 by norm_num]
  rw [roundB64_eq_up (50440315826549557 / 72057594037927936) (-1) 6305039478318694 (by norm_num) (by norm_num) (by norm_num)
    (by norm_num) (by norm_num)]
  norm_num

/-- Binary64 accumulation step 12 of the emotional ratio sweep. -/
lemma emoStep12 : roundB64 (6305039478318695 / 9007199254740992 + 3602879701896397 / 72057594037927936) = 6755399441055745 / 9007199254740992 := by
  rw [show (6305039478318695 / 9007199254740992 : ℚ) + 3602879701896397 / 72057594037927936 = 54043195528445957 / 72057594037927936 by norm_num]
  rw [roundB64_eq_up (54043195528445957 / 72057594037927936) (-1) 6755399441055744 (by norm_num) (by norm_num) (by norm_num)
    (by norm_num) (by norm_num)]
  norm_num

/-- Binary64 accumulation step 13 of the emotional ratio sweep. -/
lemma emoStep13 : roundB64 (6755399441055745 / 9007199254740992 + 3602879701896397 / 72057594037927936) = 7205759403792795 / 9007199254740992 := by
  rw [show (6755399441055745 / 9007199254740992 : ℚ) + 3602879701896397 / 72057594037927936 = 57646075230342357 / 72057594037927936 by norm_num]
  rw [roundB64_eq_up (57646075230342357 / 72057594037927936) (-1) 7205759403792794 (by norm_num) (by norm_num) (by norm_num)
    (by norm_num) (by norm_num)]
  norm_num

/-- Binary64 accumulation step 14 of the emotional ratio sweep. -/
lemma emoStep14 : roundB64 (7205759403792795 / 9007199254740992 + 3602879701896397 / 72057594037927936) = 7656119366529845 / 9007199254740992 := by
  rw [show (7205759403792795 / 9007199254740992 : ℚ) + 3602879701896397 / 72057594037927936 = 61248954932238757 / 72057594037927936 by norm_num]
  rw [roundB64_eq_up (61248954932238757 / 72057594037927936) (-1) 7656119366529844 (by norm_num) (by norm_num) (by norm_num)
    (by norm_num) (by norm_num)]
  norm_num

/-- Binary64 accumulation step 15 of the emotional ratio sweep. -/
lemma emoStep15 : roundB64 (7656119366529845 / 9007199254740992 + 3602879701896397 / 72057594037927936) = 8106479329266895 / 9007199254740992 := by
  rw [show (7656119366529845 / 9007199254740992 : ℚ) + 3602879701896397 / 72057594037927936 = 64851834634135157 / 72057594037927936 by norm_num]
  rw [roundB64_eq_up (64851834634135157 / 72057594037927936) (-1) 8106479329266894 (by norm_num) (by norm_num) (by norm_num)
    (by norm_num) (by norm_num)]
  norm_num

/-- Binary64 accumulation step 16 of the emotional ratio sweep. -/
lemma emoStep16 : roundB64 (8106479329266895 / 9007199254740992 + 3602879701896397 / 72057594037927936) = 8556839292003945 / 9007199254740992 := by
  rw [show (8106479329266895 / 9007199254740992 : ℚ) + 3602879701896397 / 72057594037927936 = 68454714336031557 / 72057594037927936 by norm_num]
  rw [roundB64_eq_up (68454714336031557 / 72057594037927936) (-1) 8556839292003944 (by norm_num) (by norm_num) (by norm_num)
    (by norm_num) (by norm_num)]
  norm_num

/-- Binary64 accumulation step 17 of the emotional ratio sweep. -/
lemma emoStep17 : roundB64 (8556839292003945 / 9007199254740992 + 3602879701896397 / 72057594037927936) = 4503599627370497 / 4503599627370496 := by
  rw [show (8556839292003945 / 9007199254740992 : ℚ) + 3602879701896397 / 72057594037927936 = 72057594037927957 / 72057594037927936 by norm_num]
  rw [roundB64_eq_down (72057594037927957 / 72057594037927936) (0) 4503599627370497 (by norm_num) (by norm_num) (by norm_num)
    (by norm_num) (by norm_num)]
  norm_num

/-- The emotional optimizer loop visits exactly these 18 ratios: binary64
accumulation overshoots 1 after the 18th, so the sweep stops before the
ratio 1 that an exact sweep would reach. -/
lemma emotionalCandidates_eq :
    emotionalCandidates =
      [3602879701896397 / 36028797018963968,
       1351079888211149 / 9007199254740992,
       3602879701896397 / 18014398509481984,
       1 / 4,
       5404319552844595 / 18014398509481984,
       3152519739159347 / 9007199254740992,
       7205759403792793 / 18014398509481984,
       2026619832316723 / 4503599627370496,
       9007199254740991 / 18014398509481984,
       4953959590107545 / 9007199254740992,
       5404319552844595 / 9007199254740992,
       5854679515581645 / 9007199254740992,
       6305039478318695 / 9007199254740992,
       6755399441055745 / 9007199254740992,
       7205759403792795 / 9007199254740992,
       7656119366529845 / 9007199254740992,
       8106479329266895 / 9007199254740992,
       8556839292003945 / 9007199254740992] := by
  rw [emotionalCandidates, emoLit_c10]
  rw [emotionalRatioSweep_cons 31 _ _ (by norm_num) emoStep0]
  rw [emotionalRatioSweep_cons 30 _ _ (by norm_num) emoStep1]
  rw [emotionalRatioSweep_cons 29 _ _ (by norm_num) emoStep2]
  rw [emotionalRatioSweep_cons 28 _ _ (by norm_num) emoStep3]
  rw [emotionalRatioSweep_cons 27 _ _ (by norm_num) emoStep4]
  rw [emotionalRatioSweep_cons 26 _ _ (by norm_num) emoStep5]
  rw [emotionalRatioSweep_cons 25 _ _ (by norm_num) emoStep6]
  rw [emotionalRatioSweep_cons 24 _ _ (by norm_num) emoStep7]
  rw [emotionalRatioSweep_cons 23 _ _ (by norm_num) emoStep8]
  rw [emotionalRatioSweep_cons 22 _ _ (by norm_num) emoStep9]
  rw [emotionalRatioSweep_cons 21 _ _ (by norm_num) emoStep10]
  rw [emotionalRatioSweep_cons 20 _ _ (by norm_num) emoStep11]
  rw [emotionalRatioSweep_cons 19 _ _ (by norm_num) emoStep12]
  rw [emotionalRatioSweep_cons 18 _ _ (by norm_num) emoStep13]
  rw [emotionalRatioSweep_cons 17 _ _ (by norm_num) emoStep14]
  rw [emotionalRatioSweep_cons 16 _ _ (by norm_num) emoStep15]
  rw [emotionalRatioSweep_cons 15 _ _ (by norm_num) emoStep16]
  rw [emotionalRatioSweep_cons 14 _ _ (by norm_num) emoStep17]
  rw [emotionalRatioSweep_stop 13 _ (by norm_num)]

/-- Folding the sweep over an appended candidate list. -/
lemma sweepBest_append (l₁ l₂ : List (ℚ × ℚ × OptMetrics)) (init : SweepAcc) :
    sweepBest (l₁ ++ l₂) init = sweepBest l₂ (sweepBest l₁ init) :=
  List.foldl_append ..

/-- Folding the sweep over a single candidate. -/
lemma sweepBest_singleton (c : ℚ × ℚ × OptMetrics) (acc : SweepAcc) :
    sweepBest [c] acc = sweepStep acc c :=
  rfl

/-- The sweep update from the sentinel state always adopts the candidate. -/
lemma sweepStep_none (acc : SweepAcc) (c : ℚ × ℚ × OptMetrics)
    (hb : acc.bestRiskScore = none) :
    sweepStep acc c = ⟨c.1, some c.2.1, c.2.2⟩ := by
  obtain ⟨r, s, m⟩ := acc
  cases s with
  | none => rfl
  | some b => exact absurd hb (by simp)

/-- The sweep update from a populated best state replaces it exactly on a
strictly greater candidate score. -/
lemma sweepStep_some (acc : SweepAcc) (c : ℚ × ℚ × OptMetrics) (b : ℚ)
    (hb : acc.bestRiskScore = some b) :
    sweepStep acc c = if b < c.2.1 then ⟨c.1, some c.2.1, c.2.2⟩ else acc := by
  obtain ⟨r, s, m⟩ := acc
  cases s with
  | none => exact absurd hb (by simp)
  | some b' =>
    have hb' : b' = b := by simpa using hb
    rw [hb']
    rfl

/-- Characterization of the optimizer sweep over candidates 0 to n: the final
state belongs to the first candidate attaining the greatest risk score, since
the best state is replaced only on strict improvement. -/
lemma sweepBest_range_spec (g : ℕ → ℚ × ℚ × OptMetrics) (r : ℚ) (m : OptMetrics) (n : ℕ) :
    ∃ i : ℕ, i ≤ n ∧
      sweepBest ((List.range (n + 1)).map g) ⟨r, none, m⟩ =
        ⟨(g i).1, some (g i).2.1, (g i).2.2⟩ ∧
      (∀ j, j ≤ n → (g j).2.1 ≤ (g i).2.1) ∧
      (∀ j, j < i → (g j).2.1 < (g i).2.1) := by
  induction n with
  | zero =>
    refine ⟨0, le_refl 0, ?_, ?_, ?_⟩
    · rw [show List.range (0 + 1) = [0] from rfl, List.map_singleton, sweepBest_singleton,
        sweepStep_none _ _ rfl]
    · intro j hj
      rw [Nat.le_zero.mp hj]
    · intro j hj
      exact absurd hj (Nat.not_lt_zero j)
  | succ n ih =>
    obtain ⟨i, hi, hacc, hmax, hfirst⟩ := ih
    rw [List.range_succ, List.map_append, sweepBest_append, hacc, List.map_singleton,
      sweepBest_singleton]
    rw [sweepStep_some _ _ ((g i).2.1) rfl]
    by_cases hlt : (g i).2.1 < (g (n + 1)).2.1
    · refine ⟨n + 1, le_refl _, ?_, ?_, ?_⟩
      · rw [if_pos hlt]
      · intro j hj
        rcases Nat.lt_succ_iff_lt_or_eq.mp (Nat.lt_succ_of_le hj) with h | h
        · exact ((hmax j (Nat.lt_succ_iff.mp h)).trans hlt.le)
        · rw [h]
      · intro j hj
        exact lt_of_le_of_lt (hmax j (Nat.lt_succ_iff.mp hj)) hlt
    · refine ⟨i, hi.trans (Nat.le_succ n), ?_, ?_, ?_⟩
      · rw [if_neg hlt]
      · intro j hj
        rcases Nat.lt_succ_iff_lt_or_eq.mp (Nat.lt_succ_of_le hj) with h | h
        · exact hmax j (Nat.lt_succ_iff.mp h)
        · rw [h]; exact not_lt.mp hlt
      · exact hfirst

/-- The emotional sweep update either keeps the best state or adopts the
candidate, so the tracked ratio is the previous one or the candidate ratio. -/
lemma sweepStepE_ratio (acc : SweepAcc) (c : ℚ × Option ℚ × OptMetrics) :
    (sweepStepE acc c).bestRatio = acc.bestRatio ∨ (sweepStepE acc c).bestRatio = c.1 := by
  cases hc : c.2.1 with
  | none =>
    left
    simp [sweepStepE, hc]
  | some s =>
    cases hb : acc.bestRiskScore with
    | none =>
      right
      simp [sweepStepE, hc, hb]
    | some b =>
      by_cases hlt : b < s
      · right
        simp [sweepStepE, hc, hb, hlt]
      · left
        simp [sweepStepE, hc, hb, hlt]

/-- A candidate whose risk score is NaN never changes the best state. -/
lemma sweepStepE_none (acc : SweepAcc) (c : ℚ × Option ℚ × OptMetrics)
    (hc : c.2.1 = none) : sweepStepE acc c = acc := by
  simp [sweepStepE, hc]

/-- The emotional sweep ends at the initial state or at one of the
candidates. -/
lemma sweepBestE_mem :
    ∀ (cands : List (ℚ × Option ℚ × OptMetrics)) (init : SweepAcc),
      (sweepBestE cands init).bestRatio = init.bestRatio ∨
        (sweepBestE cands init).bestRatio ∈ cands.map Prod.fst := by
  intro cands
  induction cands with
  | nil =>
    intro init
    left
    rfl
  | cons c cs ih =>
    intro init
    rw [show sweepBestE (c :: cs) init = sweepBestE cs (sweepStepE init c) from rfl]
    rcases ih (sweepStepE init c) with h | h
    · rcases sweepStepE_ratio init c with h2 | h2
      · left
        rw [h, h2]
      · right
        rw [h, h2, List.map_cons]
        exact List.mem_cons_self _ _
    · right
      rw [List.map_cons]
      exact List.mem_cons_of_mem _ h

/-- When every candidate scores NaN the emotional sweep never fires an update
and returns its initial state unchanged. -/
lemma sweepBestE_all_none :
    ∀ (cands : List (ℚ × Option ℚ × OptMetrics)) (init : SweepAcc),
      (∀ c ∈ cands, c.2.1 = none) → sweepBestE cands init = init := by
  intro cands
  induction cands with
  | nil =>
    intro init _
    rfl
  | cons c cs ih =>
    intro init hall
    rw [show sweepBestE (c :: cs) init = sweepBestE cs (sweepStepE init c) from rfl,
      sweepStepE_none init c (hall c (List.mem_cons_self _ _))]
    exact ih init fun x hx => hall x (List.mem_cons_of_mem _ hx)

/-- Unfolded form of percentile. -/
lemma percentile_eq (arr : List ℚ) (p : ℚ) :
    percentile arr p =
      if p / 100 * (((List.insertionSort (· ≤ ·) arr).length : ℚ) - 1) =
          (⌊p / 100 * (((List.insertionSort (· ≤ ·) arr).length : ℚ) - 1)⌋ : ℚ) then
        jsIndex (List.insertionSort (· ≤ ·) arr)
          ⌊p / 100 * (((List.insertionSort (· ≤ ·) arr).length : ℚ) - 1)⌋
      else
        match jsIndex (List.insertionSort (· ≤ ·) arr)
            ⌊p / 100 * (((List.insertionSort (· ≤ ·) arr).length : ℚ) - 1)⌋,
          jsIndex (List.insertionSort (· ≤ ·) arr)
            ⌈p / 100 * (((List.insertionSort (· ≤ ·) arr).length : ℚ) - 1)⌉ with
        | some lo, some hi =>
          some (lo * (1 - (p / 100 * (((List.insertionSort (· ≤ ·) arr).length : ℚ) - 1) -
              (⌊p / 100 * (((List.insertionSort (· ≤ ·) arr).length : ℚ) - 1)⌋ : ℚ))) +
            hi * (p / 100 * (((List.insertionSort (· ≤ ·) arr).length : ℚ) - 1) -
              (⌊p / 100 * (((List.insertionSort (· ≤ ·) arr).length : ℚ) - 1)⌋ : ℚ)))
        | _, _ => none :=
  rfl

/-- In-range JavaScript indexing yields an element of the list. -/
lemma jsIndex_isSome {l : List ℚ} {i : ℤ} (h0 : 0 ≤ i) (hlt : i < (l.length : ℤ)) :
    ∃ v, jsIndex l i = some v ∧ v ∈ l := by
  rw [jsIndex, if_pos h0]
  have hn : i.toNat < l.length := by omega
  exact ⟨l.get ⟨i.toNat, hn⟩, List.get?_eq_get hn, List.get_mem ..⟩

/-- Out-of-range JavaScript indexing yields undefined. -/
lemma jsIndex_none_of_empty (i : ℤ) : jsIndex [] i = none := by
  rw [jsIndex]
  split
  · exact List.get?_nil
  · rfl

/-- Percentile of the empty sample: the source accesses a nonexistent array
slot and produces an undefined value, never an error. -/
lemma percentile_nil (p : ℚ) : percentile [] p = none := by
  rw [percentile_eq]
  split
  · exact jsIndex_none_of_empty _
  · rw [show List.insertionSort (· ≤ ·) ([] : List ℚ) = [] from rfl]
    rw [jsIndex_none_of_empty, jsIndex_none_of_empty]

/-- Index bounds of percentile for a percentile rank between 0 and 100. -/
lemma percentile_index_bounds {arr : List ℚ} (hne : arr ≠ []) {p : ℚ}
    (h0 : 0 ≤ p) (h1 : p ≤ 100) :
    0 ≤ p / 100 * ((arr.length : ℚ) - 1) ∧
      p / 100 * ((arr.length : ℚ) - 1) ≤ (arr.length : ℚ) - 1 := by
  have hn : 1 ≤ (arr.length : ℚ) := by
    have := List.length_pos.mpr hne
    exact_mod_cast this
  have hp : 0 ≤ p / 100 := by positivity
  have hp1 : p / 100 ≤ 1 := by linarith
  constructor
  · exact mul_nonneg hp (by linarith)
  · exact mul_le_of_le_one_left (by linarith) hp1

/-- Floor and ceiling of the percentile index stay inside the array. -/
lemma percentile_int_bounds {arr : List ℚ} (hne : arr ≠ []) {p : ℚ}
    (h0 : 0 ≤ p) (h1 : p ≤ 100) :
    0 ≤ ⌊p / 100 * ((arr.length : ℚ) - 1)⌋ ∧
      ⌊p / 100 * ((arr.length : ℚ) - 1)⌋ ≤ (arr.length : ℤ) - 1 ∧
      0 ≤ ⌈p / 100 * ((arr.length : ℚ) - 1)⌉ ∧
      ⌈p / 100 * ((arr.length : ℚ) - 1)⌉ ≤ (arr.length : ℤ) - 1 := by
  obtain ⟨hlo, hhi⟩ := percentile_index_bounds hne h0 h1
  have hfl : ⌊((arr.length : ℚ) - 1)⌋ = (arr.length : ℤ) - 1 := by
    rw [show ((arr.length : ℚ) - 1) = (((arr.length : ℤ) - 1 : ℤ) : ℚ) by push_cast; ring,
      Int.floor_intCast]
  refine ⟨Int.floor_nonneg.mpr hlo, ?_, ?_, ?_⟩
  · exact (Int.floor_le_floor hhi).trans_eq hfl
  · exact le_trans (Int.floor_nonneg.mpr hlo) (Int.floor_le_ceil _)
  · rw [Int.ceil_le, show (((arr.length : ℤ) - 1 : ℤ) : ℚ) = ((arr.length : ℚ) - 1 : ℚ) by
      push_cast; ring]
    exact hhi

/-- Percentile of a non-empty sample at a rank between 0 and 100 is a defined
value: both order-statistic accesses are in bounds. -/
lemma percentile_isSome {arr : List ℚ} (hne : arr ≠ []) {p : ℚ}
    (h0 : 0 ≤ p) (h1 : p ≤ 100) :
    ∃ v, percentile arr p = some v := by
  obtain ⟨hf0, hf1, hc0, hc1⟩ := percentile_int_bounds hne h0 h1
  have hlen : ((List.insertionSort (· ≤ ·) arr).length : ℚ) = (arr.length : ℚ) := by
    rw [List.length_insertionSort]
  have hlenz : ((List.insertionSort (· ≤ ·) arr).length : ℤ) = (arr.length : ℤ) := by
    rw [List.length_insertionSort]
  have hn : 1 ≤ (arr.length : ℤ) := by
    have := List.length_pos.mpr hne
    exact_mod_cast this
  rw [percentile_eq, hlen]
  split
  · obtain ⟨v, hv, _⟩ := jsIndex_isSome hf0 (by omega : _ < ((List.insertionSort (· ≤ ·) arr).length : ℤ))
    · exact ⟨v, hv⟩
  · obtain ⟨lo, hlo, _⟩ := jsIndex_isSome hf0
      (by rw [hlenz]; omega : ⌊p / 100 * ((arr.length : ℚ) - 1)⌋ < ((List.insertionSort (· ≤ ·) arr).length : ℤ))
    obtain ⟨hi, hhi, _⟩ := jsIndex_isSome hc0
      (by rw [hlenz]; omega : ⌈p / 100 * ((arr.length : ℚ) - 1)⌉ < ((List.insertionSort (· ≤ ·) arr).length : ℤ))
    rw [hlo, hhi]
    exact ⟨_, rfl⟩

/-- Every element of a sorted list is at most its last element. -/
lemma sorted_le_getLast :
    ∀ (l : List ℚ) (hl : l ≠ []), l.Sorted (· ≤ ·) → ∀ x ∈ l, x ≤ l.getLast hl := by
  intro l
  induction l with
  | nil => intro hl; exact absurd rfl hl
  | cons a t ih =>
    intro _ hs x hx
    cases t with
    | nil =>
      rw [List.mem_singleton.mp hx]
      rfl
    | cons b u =>
      rw [List.getLast_cons (List.cons_ne_nil b u)]
      rcases List.mem_cons.mp hx with h | h
      · have hlast : (b :: u).getLast (List.cons_ne_nil b u) ∈ b :: u := List.getLast_mem _
        exact h ▸ List.rel_of_sorted_cons hs _ hlast
      · exact ih (List.cons_ne_nil b u) hs.of_cons x h

/-- Percentile at rank 0 is the least element of the sample. -/
lemma percentile_zero {arr : List ℚ} (hne : arr ≠ []) :
    ∃ v, percentile arr 0 = some v ∧ v ∈ arr ∧ ∀ x ∈ arr, v ≤ x := by
  have hidx : (0 : ℚ) / 100 * (((List.insertionSort (· ≤ ·) arr).length : ℚ) - 1) = 0 := by
    norm_num
  have hsne : List.insertionSort (· ≤ ·) arr ≠ [] := by
    intro h
    exact hne (List.eq_nil_of_length_eq_zero (by rw [← List.length_insertionSort (· ≤ ·) arr, h]; rfl))
  obtain ⟨s, t, hst⟩ := List.exists_cons_of_ne_nil hsne
  refine ⟨s, ?_, ?_, ?_⟩
  · rw [percentile_eq, hidx]
    norm_num [jsIndex, hst]
  · have : s ∈ List.insertionSort (· ≤ ·) arr := by rw [hst]; exact List.mem_cons_self ..
    exact (List.perm_insertionSort (· ≤ ·) arr).mem_iff.mp this
  · intro x hx
    have hxs : x ∈ List.insertionSort (· ≤ ·) arr :=
      (List.perm_insertionSort (· ≤ ·) arr).mem_iff.mpr hx
    rw [hst] at hxs
    have hs : (List.insertionSort (· ≤ ·) arr).Sorted (· ≤ ·) :=
      List.sorted_insertionSort (· ≤ ·) arr
    rw [hst] at hs
    rcases List.mem_cons.mp hxs with h | h
    · rw [h]
    · exact List.rel_of_sorted_cons hs x h

/-- Percentile at rank 100 is the greatest element of the sample. -/
lemma percentile_hundred {arr : List ℚ} (hne : arr ≠ []) :
    ∃ v, percentile arr 100 = some v ∧ v ∈ arr ∧ ∀ x ∈ arr, x ≤ v := by
  have hsne : List.insertionSort (· ≤ ·) arr ≠ [] := by
    intro h
    exact hne (List.eq_nil_of_length_eq_zero (by rw [← List.length_insertionSort (· ≤ ·) arr, h]; rfl))
  have hpos : 0 < (List.insertionSort (· ≤ ·) arr).length := List.length_pos.mpr hsne
  have hidx : (100 : ℚ) / 100 * (((List.insertionSort (· ≤ ·) arr).length : ℚ) - 1) =
      ((((List.insertionSort (· ≤ ·) arr).length : ℤ) - 1 : ℤ) : ℚ) := by
    push_cast
    ring
  have hfloor : ⌊(100 : ℚ) / 100 * (((List.insertionSort (· ≤ ·) arr).length : ℚ) - 1)⌋ =
      ((List.insertionSort (· ≤ ·) arr).length : ℤ) - 1 := by
    rw [hidx, Int.floor_intCast]
  have hlt : (List.insertionSort (· ≤ ·) arr).length - 1 <
      (List.insertionSort (· ≤ ·) arr).length := by omega
  refine ⟨(List.insertionSort (· ≤ ·) arr).getLast hsne, ?_, ?_, ?_⟩
  · rw [percentile_eq, if_pos (by rw [hfloor, hidx]), hfloor, jsIndex,
      if_pos (by omega : (0 : ℤ) ≤ ((List.insertionSort (· ≤ ·) arr).length : ℤ) - 1)]
    rw [show (((List.insertionSort (· ≤ ·) arr).length : ℤ) - 1).toNat =
      (List.insertionSort (· ≤ ·) arr).length - 1 by omega]
    rw [List.get?_eq_get hlt, List.get_eq_getElem, List.getLast_eq_getElem]
  · exact (List.perm_insertionSort (· ≤ ·) arr).mem_iff.mp (List.getLast_mem hsne)
  · intro x hx
    exact sorted_le_getLast _ hsne (List.sorted_insertionSort (· ≤ ·) arr) x
      ((List.perm_insertionSort (· ≤ ·) arr).mem_iff.mpr hx)

/-- Percentile of a sample whose elements are all equal to c is c, at every
rank between 0 and 100. -/
lemma percentile_const {arr : List ℚ} {c : ℚ} (hne : arr ≠ [])
    (hall : ∀ x ∈ arr, x = c) {p : ℚ} (h0 : 0 ≤ p) (h1 : p ≤ 100) :
    percentile arr p = some c := by
  obtain ⟨hf0, hf1, hc0, hc1⟩ := percentile_int_bounds hne h0 h1
  have hlen : ((List.insertionSort (· ≤ ·) arr).length : ℚ) = (arr.length : ℚ) := by
    rw [List.length_insertionSort]
  have hlenz : ((List.insertionSort (· ≤ ·) arr).length : ℤ) = (arr.length : ℤ) := by
    rw [List.length_insertionSort]
  have hn : 1 ≤ (arr.length : ℤ) := by
    have := List.length_pos.mpr hne
    exact_mod_cast this
  have hallS : ∀ x ∈ List.insertionSort (· ≤ ·) arr, x = c := fun x hx =>
    hall x ((List.perm_insertionSort (· ≤ ·) arr).mem_iff.mp hx)
  rw [percentile_eq, hlen]
  split
  · obtain ⟨v, hv, hvmem⟩ := jsIndex_isSome hf0
      (by rw [hlenz]; omega :
        ⌊p / 100 * ((arr.length : ℚ) - 1)⌋ < ((List.insertionSort (· ≤ ·) arr).length : ℤ))
    rw [hv, hallS v hvmem]
  · obtain ⟨lo, hlo, hlomem⟩ := jsIndex_isSome hf0
      (by rw [hlenz]; omega :
        ⌊p / 100 * ((arr.length : ℚ) - 1)⌋ < ((List.insertionSort (· ≤ ·) arr).length : ℤ))
    obtain ⟨hi, hhi, hhimem⟩ := jsIndex_isSome hc0
      (by rw [hlenz]; omega :
        ⌈p / 100 * ((arr.length : ℚ) - 1)⌉ < ((List.insertionSort (· ≤ ·) arr).length : ℤ))
    rw [hlo, hhi, hallS lo hlomem, hallS hi hhimem]
    ring_nf

/-- Count of a predicate over a constant list. -/
lemma countP_replicate (f : ℚ → Bool) (n : ℕ) (c : ℚ) :
    (List.replicate n c).countP f = if f c then n else 0 := by
  induction n with
  | zero => simp
  | succ n ih =>
    rw [List.replicate_succ, List.countP_cons, ih]
    by_cases h : f c
    · simp [h]
    · simp [h]

/-- The statistics record of a constant sample: every summary statistic is the
constant, and the positive-outcome share is all or nothing. -/
lemma statsOf_replicate (n : ℕ) (hn : 0 < n) (c : ℚ) :
    (statsOf (List.replicate n c)).mean = c ∧
      (statsOf (List.replicate n c)).median = c ∧
      (statsOf (List.replicate n c)).worstCase10 = c ∧
      (statsOf (List.replicate n c)).probabilityPositive = if 0 < c then 1 else 0 := by
  have hne : List.replicate n c ≠ [] :=
    List.length_pos.mp (by rw [List.length_replicate]; omega)
  have hall : ∀ x ∈ List.replicate n c, x = c := fun x hx => List.eq_of_mem_replicate hx
  have hnz : ((List.replicate n c).length : ℚ) ≠ 0 := by
    rw [List.length_replicate]
    exact_mod_cast hn.ne.symm
  refine ⟨?_, ?_, ?_, ?_⟩
  · show (List.replicate n c).sum / ((List.replicate n c).length : ℚ) = c
    rw [List.sum_replicate, nsmul_eq_mul, List.length_replicate]
    exact mul_div_cancel_left₀ c (by exact_mod_cast hn.ne.symm)
  · show percentileD (List.replicate n c) 50 = c
    rw [percentileD, percentile_const hne hall (by norm_num) (by norm_num)]
    rfl
  · show percentileD (List.replicate n c) 10 = c
    rw [percentileD, percentile_const hne hall (by norm_num) (by norm_num)]
    rfl
  · show (((List.replicate n c).countP fun v => decide (0 < v)) : ℚ) /
      ((List.replicate n c).length : ℚ) = if 0 < c then 1 else 0
    rw [countP_replicate, List.length_replicate]
    by_cases h : 0 < c
    · rw [if_pos (by simpa using h), if_pos h]
      exact div_self (by exact_mod_cast hn.ne.symm)
    · rw [if_neg (by simpa using h), if_neg h]
      simp

/-- Tested ratio of optimizer candidate i. -/
lemma optimalCandidate_fst (b a p : ℚ) (months : ℕ) (fee : ℚ) (steps runs : ℕ)
    (sqrt : ℚ → ℚ) (rand : ℕ → ℕ → ℕ → ℚ) (i : ℕ) :
    (optimalCandidate b a p months fee steps runs sqrt rand i).1 = (i : ℚ) / (steps : ℚ) :=
  rfl

/-- Win percentage of optimizer candidate i, as counted over the paired runs. -/
lemma optimalCandidate_winPercentage (b a p : ℚ) (months : ℕ) (fee : ℚ) (steps runs : ℕ)
    (sqrt : ℚ → ℚ) (rand : ℕ → ℕ → ℕ → ℚ) (i : ℕ) :
    (optimalCandidate b a p months fee steps runs sqrt rand i).2.2.winPercentage =
      (((((runComparisonSimulation b a ((i : ℚ) / (steps : ℚ)) p months fee runs
            (rand (i + 1))).hedged.zip
          (runComparisonSimulation b a ((i : ℚ) / (steps : ℚ)) p months fee runs
            (rand (i + 1))).unhedged).countP
          fun x => decide (x.2 < x.1)) : ℚ) / (runs : ℚ)) * 100 :=
  rfl

/-- Both output sequences of the comparison simulator have one entry per run. -/
lemma runComparisonSimulation_lengths (b a r p : ℚ) (months : ℕ) (fee : ℚ) (runs : ℕ)
    (rand : ℕ → ℕ → ℚ) :
    (runComparisonSimulation b a r p months fee runs rand).hedged.length = runs ∧
      (runComparisonSimulation b a r p months fee runs rand).unhedged.length = runs := by
  constructor <;> simp [runComparisonSimulation]

/-- Bounds for a percentage computed from a count over a positive total. -/
lemma winPct_bounds {w r : ℕ} (hw : w ≤ r) (hr : 0 < r) :
    0 ≤ ((w : ℚ) / (r : ℚ)) * 100 ∧ ((w : ℚ) / (r : ℚ)) * 100 ≤ 100 := by
  have hrq : (0 : ℚ) < (r : ℚ) := by exact_mod_cast hr
  constructor
  · positivity
  · have h1 : (w : ℚ) ≤ (r : ℚ) := by exact_mod_cast hw
    have h2 : (w : ℚ) / (r : ℚ) ≤ 1 := (div_le_one hrq).mpr h1
    nlinarith

/-- The wins count of candidate i never exceeds the number of runs. -/
lemma optimalCandidate_wins_le (b a p : ℚ) (months : ℕ) (fee : ℚ) (runs : ℕ)
    (r : ℚ) (rand₂ : ℕ → ℕ → ℚ) :
    (((runComparisonSimulation b a r p months fee runs rand₂).hedged.zip
        (runComparisonSimulation b a r p months fee runs rand₂).unhedged).countP
        fun x => decide (x.2 < x.1)) ≤ runs := by
  have h := List.countP_le_length (l := (runComparisonSimulation b a r p months fee runs
    rand₂).hedged.zip (runComparisonSimulation b a r p months fee runs rand₂).unhedged)
    (p := fun x => decide (x.2 < x.1))
  rw [List.length_zip, (runComparisonSimulation_lengths b a r p months fee runs rand₂).1,
    (runComparisonSimulation_lengths b a r p months fee runs rand₂).2, min_self] at h
  exact h

/-- Characterization of findOptimalHedgeRatio: the returned ratio, score and
metric bundle are those of the first swept candidate attaining the greatest
composite risk score. -/
lemma findOptimalHedgeRatio_spec (b a p : ℚ) (months : ℕ) (fee : ℚ) (steps runs : ℕ)
    (sqrt : ℚ → ℚ) (rand : ℕ → ℕ → ℕ → ℚ) :
    ∃ i, i ≤ steps ∧
      (findOptimalHedgeRatio b a p months fee steps runs sqrt rand).optimalRatio =
        (i : ℚ) / (steps : ℚ) ∧
      (findOptimalHedgeRatio b a p months fee steps runs sqrt rand).riskScore =
        (optimalCandidate b a p months fee steps runs sqrt rand i).2.1 ∧
      (findOptimalHedgeRatio b a p months fee steps runs sqrt rand).winPercentage =
        (optimalCandidate b a p months fee steps runs sqrt rand i).2.2.winPercentage ∧
      (∀ j, j ≤ steps → (optimalCandidate b a p months fee steps runs sqrt rand j).2.1 ≤
        (optimalCandidate b a p months fee steps runs sqrt rand i).2.1) ∧
      (∀ j, j < i → (optimalCandidate b a p months fee steps runs sqrt rand j).2.1 <
        (optimalCandidate b a p months fee steps runs sqrt rand i).2.1) := by
  obtain ⟨i, hi, hacc, hmax, hfirst⟩ :=
    sweepBest_range_spec (optimalCandidate b a p months fee steps runs sqrt rand) 0
      ⟨0, 0, 0, 0, 0⟩ steps
  refine ⟨i, hi, ?_, ?_, ?_, hmax, hfirst⟩
  · show (sweepBest ((List.range (steps + 1)).map
      (optimalCandidate b a p months fee steps runs sqrt rand)) ⟨0, none, ⟨0, 0, 0, 0, 0⟩⟩).bestRatio = _
    rw [hacc, optimalCandidate_fst]
  · show (sweepBest ((List.range (steps + 1)).map
      (optimalCandidate b a p months fee steps runs sqrt rand))
      ⟨0, none, ⟨0, 0, 0, 0, 0⟩⟩).bestRiskScore.getD 0 = _
    rw [hacc]
    rfl
  · show (sweepBest ((List.range (steps + 1)).map
      (optimalCandidate b a p months fee steps runs sqrt rand))
      ⟨0, none, ⟨0, 0, 0, 0, 0⟩⟩).bestMetrics.winPercentage = _
    rw [hacc]

/-- A zero hedge ratio produces no shares, no premium and identical hedged and
unhedged outcomes in the recurring-expense calculator. -/
lemma calculateHedging_ratio_zero (b a p f : ℚ) :
    calculateHedging b a 0 p f = ⟨0, 0, -a, -b, -a, -b⟩ := by
  rw [calculateHedging]
  norm_num

/-- A zero hedge ratio produces no shares, no premium and identical hedged and
unhedged outcomes in the consolation calculator. -/
lemma calculateEmotionalHedging_ratio_zero (t d p f : ℚ) :
    calculateEmotionalHedging t d 0 p f = ⟨0, 0, -t, -t, -t, -t⟩ := by
  rw [calculateEmotionalHedging]
  norm_num

/-- At hedge ratio zero the two output sequences of the comparison simulator
coincide. -/
lemma runComparisonSimulation_ratio_zero (b a p : ℚ) (months : ℕ) (f : ℚ) (runs : ℕ)
    (rand : ℕ → ℕ → ℚ) :
    (runComparisonSimulation b a 0 p months f runs rand).hedged =
      (runComparisonSimulation b a 0 p months f runs rand).unhedged := by
  simp [runComparisonSimulation, calculateHedging_ratio_zero]

/-- C2 : calculateHedging(100, 120, 0.8, 0.35, 0.02) returns shares ≈ 16.3265
(exactly 800/49), premium ≈ 5.714 (exactly 40/7), hedged outcomes ≈ -109.714
and ≈ -105.714 (exactly -768/7 and -740/7), unhedged outcomes exactly -120 and
-100, with shares = (adverse - baseline) × hedgeRatio / (1 - feeRate) and
premium = shares × price. -/
theorem c2_calculateHedging_concrete :
    (calculateHedging 100 120 (8 / 10) (35 / 100) (2 / 100)).shares = 800 / 49 ∧
    |(calculateHedging 100 120 (8 / 10) (35 / 100) (2 / 100)).shares - 163265 / 10000| ≤
      1 / 1000 ∧
    (calculateHedging 100 120 (8 / 10) (35 / 100) (2 / 100)).premium = 40 / 7 ∧
    |(calculateHedging 100 120 (8 / 10) (35 / 100) (2 / 100)).premium - 5714 / 1000| ≤
      1 / 1000 ∧
    (calculateHedging 100 120 (8 / 10) (35 / 100) (2 / 100)).hedgedOutcomeIfEventTrue =
      -768 / 7 ∧
    |(calculateHedging 100 120 (8 / 10) (35 / 100) (2 / 100)).hedgedOutcomeIfEventTrue +
      109714 / 1000| ≤ 1 / 1000 ∧
    (calculateHedging 100 120 (8 / 10) (35 / 100) (2 / 100)).hedgedOutcomeIfEventFalse =
      -740 / 7 ∧
    |(calculateHedging 100 120 (8 / 10) (35 / 100) (2 / 100)).hedgedOutcomeIfEventFalse +
      105714 / 1000| ≤ 1 / 1000 ∧
    (calculateHedging 100 120 (8 / 10) (35 / 100) (2 / 100)).unhedgedOutcomeIfEventTrue =
      -120 ∧
    (calculateHedging 100 120 (8 / 10) (35 / 100) (2 / 100)).unhedgedOutcomeIfEventFalse =
      -100 ∧
    (calculateHedging 100 120 (8 / 10) (35 / 100) (2 / 100)).shares =
      (120 - 100) * (8 / 10) / (1 - 2 / 100) ∧
    (calculateHedging 100 120 (8 / 10) (35 / 100) (2 / 100)).premium =
      (calculateHedging 100 120 (8 / 10) (35 / 100) (2 / 100)).shares * (35 / 100) := by
  norm_num [calculateHedging, abs_le]

/-- C4 : at hedgeRatio 0 the recurring-expense calculator yields zero shares
and zero premium and hedged outcomes equal to the unhedged ones; consequently
the hedged and unhedged sequences of runComparisonSimulation coincide within
1e-9 for every run count and draw stream, and the consolation-mode calculator
behaves the same way. -/
theorem c4_zero_ratio_identity (b a p fee t d : ℚ) (months runs : ℕ) (rand : ℕ → ℕ → ℚ) :
    (calculateHedging b a 0 p fee).shares = 0 ∧
    (calculateHedging b a 0 p fee).premium = 0 ∧
    (calculateHedging b a 0 p fee).hedgedOutcomeIfEventTrue =
      (calculateHedging b a 0 p fee).unhedgedOutcomeIfEventTrue ∧
    (calculateHedging b a 0 p fee).hedgedOutcomeIfEventFalse =
      (calculateHedging b a 0 p fee).unhedgedOutcomeIfEventFalse ∧
    List.Forall₂ (fun h u => |h - u| ≤ 1 / 1000000000)
      (runComparisonSimulation b a 0 p months fee runs rand).hedged
      (runComparisonSimulation b a 0 p months fee runs rand).unhedged ∧
    (calculateEmotionalHedging t d 0 p fee).shares = 0 ∧
    (calculateEmotionalHedging t d 0 p fee).premium = 0 ∧
    (calculateEmotionalHedging t d 0 p fee).outcomeIfTeamWins =
      (calculateEmotionalHedging t d 0 p fee).unhedgedOutcomeIfTeamWins ∧
    (calculateEmotionalHedging t d 0 p fee).outcomeIfTeamLoses =
      (calculateEmotionalHedging t d 0 p fee).unhedgedOutcomeIfTeamLoses := by
  refine ⟨?_, ?_, ?_, ?_, ?_, ?_, ?_, ?_, ?_⟩
  · rw [calculateHedging_ratio_zero]
  · rw [calculateHedging_ratio_zero]
  · rw [calculateHedging_ratio_zero]
  · rw [calculateHedging_ratio_zero]
  · rw [runComparisonSimulation_ratio_zero, List.forall₂_same]
    intro x _
    simp
  · rw [calculateEmotionalHedging_ratio_zero]
  · rw [calculateEmotionalHedging_ratio_zero]
  · rw [calculateEmotionalHedging_ratio_zero]
  · rw [calculateEmotionalHedging_ratio_zero]

/-- C5 counterexample: raising the fee rate from 0 to 0.05 fails to strictly
increase shares and premium whenever the numerator of the share formula or
the price degenerates — baseline = adverse, or hedgeRatio = 0, or price = 0 —
refuting the unconditional monotonicity claim at each such input. -/
theorem c5_counterexample :
    ¬ ((calculateHedging 100 100 (8 / 10) (35 / 100) 0).shares <
        (calculateHedging 100 100 (8 / 10) (35 / 100) (5 / 100)).shares ∧
      (calculateHedging 100 100 (8 / 10) (35 / 100) 0).premium <
        (calculateHedging 100 100 (8 / 10) (35 / 100) (5 / 100)).premium) ∧
    ¬ ((calculateHedging 100 120 0 (35 / 100) 0).shares <
        (calculateHedging 100 120 0 (35 / 100) (5 / 100)).shares ∧
      (calculateHedging 100 120 0 (35 / 100) 0).premium <
        (calculateHedging 100 120 0 (35 / 100) (5 / 100)).premium) ∧
    ¬ ((calculateHedging 100 120 (8 / 10) 0 0).premium <
        (calculateHedging 100 120 (8 / 10) 0 (5 / 100)).premium) := by
  refine ⟨?_, ?_, ?_⟩ <;> norm_num [calculateHedging]

/-- C5 (amended) : when the adverse expense strictly exceeds the baseline,
the hedge ratio is positive and the price is positive, increasing the fee
rate within [0, 1) strictly increases both shares and premium. -/
theorem c5_feeRate_strict_mono (b a r p f₁ f₂ : ℚ) (hba : b < a) (hr : 0 < r)
    (hp : 0 < p) (h1 : 0 ≤ f₁) (h12 : f₁ < f₂) (h2 : f₂ < 1) :
    (calculateHedging b a r p f₁).shares < (calculateHedging b a r p f₂).shares ∧
    (calculateHedging b a r p f₁).premium < (calculateHedging b a r p f₂).premium := by
  have hnum : 0 < (a - b) * r := mul_pos (by linarith) hr
  have hp2 : 0 < 1 - f₂ := by linarith
  have hlt : 1 - f₂ < 1 - f₁ := by linarith
  have hs : (a - b) * r / (1 - f₁) < (a - b) * r / (1 - f₂) :=
    div_lt_div_of_pos_left hnum hp2 hlt
  exact ⟨hs, mul_lt_mul_of_pos_right hs hp⟩

/-- C5 witness instance of the amended monotonicity. -/
theorem c5_witness :
    (calculateHedging 100 120 (1 / 2) (1 / 2) 0).shares <
      (calculateHedging 100 120 (1 / 2) (1 / 2) (1 / 100)).shares ∧
    (calculateHedging 100 120 (1 / 2) (1 / 2) 0).premium <
      (calculateHedging 100 120 (1 / 2) (1 / 2) (1 / 100)).premium :=
  c5_feeRate_strict_mono 100 120 (1 / 2) (1 / 2) 0 (1 / 100) (by norm_num) (by norm_num)
    (by norm_num) (by norm_num) (by norm_num) (by norm_num)

/-- C7 : for every non-empty sample, percentile at rank 0 is the minimum of
the sample and percentile at rank 100 is the maximum. -/
theorem c7_percentile_min_max (s : List ℚ) (hne : s ≠ []) :
    (∃ v, percentile s 0 = some v ∧ v ∈ s ∧ ∀ x ∈ s, v ≤ x) ∧
    (∃ v, percentile s 100 = some v ∧ v ∈ s ∧ ∀ x ∈ s, x ≤ v) :=
  ⟨percentile_zero hne, percentile_hundred hne⟩

/-- C7 witness instance on the sample [3, 1, 2]. -/
theorem c7_witness :
    (∃ v, percentile [3, 1, 2] 0 = some v ∧ v ∈ ([3, 1, 2] : List ℚ) ∧
      ∀ x ∈ ([3, 1, 2] : List ℚ), v ≤ x) ∧
    (∃ v, percentile [3, 1, 2] 100 = some v ∧ v ∈ ([3, 1, 2] : List ℚ) ∧
      ∀ x ∈ ([3, 1, 2] : List ℚ), x ≤ v) :=
  c7_percentile_min_max [3, 1, 2] (List.cons_ne_nil _ _)

/-- C8 : calculateStats on a constant sample of positive length returns the
constant for mean, median and worst case, and a positive-outcome probability
of 1 when the constant is positive and 0 otherwise. -/
theorem c8_constant_stats (n : ℕ) (c : ℚ) (hn : 0 < n) :
    ∃ st, calculateStats (List.replicate n c) = .ok st ∧
      st.mean = c ∧ st.median = c ∧ st.worstCase10 = c ∧
      st.probabilityPositive = if 0 < c then 1 else 0 := by
  have hne : List.replicate n c ≠ [] :=
    List.length_pos.mp (by rw [List.length_replicate]; omega)
  obtain ⟨h1, h2, h3, h4⟩ := statsOf_replicate n hn c
  refine ⟨statsOf (List.replicate n c), ?_, h1, h2, h3, h4⟩
  rw [calculateStats, if_neg (by simp; omega)]

/-- C8 witness instance on the sample of five copies of -100. -/
theorem c8_witness :
    ∃ st, calculateStats (List.replicate 5 (-100 : ℚ)) = .ok st ∧
      st.mean = -100 ∧ st.median = -100 ∧ st.worstCase10 = -100 ∧
      st.probabilityPositive = if 0 < (-100 : ℚ) then 1 else 0 :=
  c8_constant_stats 5 (-100) (by norm_num)

/-- C10 : percentile performs no emptiness check — on the empty sample it
accesses a nonexistent slot and yields an undefined value rather than an
error — while on a non-empty sample with rank between 0 and 100 both
order-statistic indices are in bounds and the result is defined. -/
theorem c10_percentile_index_safety (s : List ℚ) (p : ℚ) :
    percentile ([] : List ℚ) p = none ∧
    (s ≠ [] → 0 ≤ p → p ≤ 100 →
      (0 ≤ ⌊p / 100 * ((s.length : ℚ) - 1)⌋ ∧
        ⌊p / 100 * ((s.length : ℚ) - 1)⌋ ≤ (s.length : ℤ) - 1 ∧
        0 ≤ ⌈p / 100 * ((s.length : ℚ) - 1)⌉ ∧
        ⌈p / 100 * ((s.length : ℚ) - 1)⌉ ≤ (s.length : ℤ) - 1) ∧
      ∃ v, percentile s p = some v) := by
  refine ⟨percentile_nil p, fun hne h0 h1 => ⟨?_, percentile_isSome hne h0 h1⟩⟩
  obtain ⟨a1, a2, a3, a4⟩ := percentile_int_bounds hne h0 h1
  exact ⟨a1, a2, a3, a4⟩

/-- C10 witness instance on the sample [1, 2] at rank 50. -/
theorem c10_witness :
    (0 ≤ ⌊(50 : ℚ) / 100 * ((([1, 2] : List ℚ).length : ℚ) - 1)⌋ ∧
      ⌊(50 : ℚ) / 100 * ((([1, 2] : List ℚ).length : ℚ) - 1)⌋ ≤
        (([1, 2] : List ℚ).length : ℤ) - 1 ∧
      0 ≤ ⌈(50 : ℚ) / 100 * ((([1, 2] : List ℚ).length : ℚ) - 1)⌉ ∧
      ⌈(50 : ℚ) / 100 * ((([1, 2] : List ℚ).length : ℚ) - 1)⌉ ≤
        (([1, 2] : List ℚ).length : ℤ) - 1) ∧
    ∃ v, percentile [1, 2] 50 = some v :=
  (c10_percentile_index_safety [1, 2] 50).2 (List.cons_ne_nil _ _) (by norm_num) (by norm_num)

/-- C3 : calculateStats fails with its distinguishable empty-sample error
exactly on the empty sample, and on every non-empty sample returns the
arithmetic mean, the 50th and 10th percentiles (both defined values, never an
undefined stand-in) and the positive-outcome share. -/
theorem c3_calculateStats_error_iff (s : List ℚ) :
    calculateStats ([] : List ℚ) = .error emptyStatsMsg ∧
    (∀ st, calculateStats s = .ok st → s ≠ []) ∧
    (s ≠ [] →
      ∃ st, calculateStats s = .ok st ∧
        st.mean = s.sum / (s.length : ℚ) ∧
        percentile s 50 = some st.median ∧
        percentile s 10 = some st.worstCase10 ∧
        st.probabilityPositive = ((s.countP fun v => decide (0 < v)) : ℚ) / (s.length : ℚ)) := by
  refine ⟨rfl, ?_, ?_⟩
  · intro st hst hs
    rw [hs] at hst
    simp [calculateStats] at hst
  · intro hne
    obtain ⟨v50, hv50⟩ := percentile_isSome hne (by norm_num : (0 : ℚ) ≤ 50) (by norm_num)
    obtain ⟨v10, hv10⟩ := percentile_isSome hne (by norm_num : (0 : ℚ) ≤ 10) (by norm_num)
    refine ⟨statsOf s, ?_, rfl, ?_, ?_, rfl⟩
    · rw [calculateStats, if_neg (by simp [hne])]
    · show percentile s 50 = some (percentileD s 50)
      rw [percentileD, hv50]
      rfl
    · show percentile s 10 = some (percentileD s 10)
      rw [percentileD, hv10]
      rfl

/-- C3 witness instance on the sample [1, 2, 3]. -/
theorem c3_witness :
    ∃ st, calculateStats [1, 2, 3] = .ok st ∧
      st.mean = ([1, 2, 3] : List ℚ).sum / ((([1, 2, 3] : List ℚ).length : ℕ) : ℚ) ∧
      percentile [1, 2, 3] 50 = some st.median ∧
      percentile [1, 2, 3] 10 = some st.worstCase10 ∧
      st.probabilityPositive =
        ((([1, 2, 3] : List ℚ).countP fun v => decide (0 < v)) : ℚ) /
          ((([1, 2, 3] : List ℚ).length : ℕ) : ℚ) :=
  (c3_calculateStats_error_iff [1, 2, 3]).2.2 (List.cons_ne_nil _ _)

/-- The emotional optimizer loop always visits at least one candidate. -/
lemma emotionalCandidates_ne_nil : emotionalCandidates ≠ [] := by
  rw [emotionalCandidates_eq]
  exact List.cons_ne_nil _ _

/-- The ratio returned by the emotional optimizer is one of the swept loop
values or the untouched initial ratio 0.5 — the latter exactly when no
candidate risk score ever passes the strictly-greater test. -/
lemma findOptimalEmotionalHedgeRatio_mem_or_init (t d p fee : ℚ) (sqrt : ℚ → ℚ)
    (rand : ℕ → ℕ → ℚ) :
    (findOptimalEmotionalHedgeRatio t d p fee sqrt rand).optimalRatio ∈
      emotionalCandidates ∨
    (findOptimalEmotionalHedgeRatio t d p fee sqrt rand).optimalRatio = 1 / 2 := by
  have hr : (findOptimalEmotionalHedgeRatio t d p fee sqrt rand).optimalRatio =
      (sweepBestE (emotionalCandidates.enum.map fun pr =>
        emotionalCandidate t d p fee sqrt rand pr.1 pr.2)
        ⟨1 / 2, none, ⟨0, 0, 0, 0, 0⟩⟩).bestRatio := rfl
  have hmap : ((emotionalCandidates.enum.map fun pr =>
      emotionalCandidate t d p fee sqrt rand pr.1 pr.2).map Prod.fst) =
      emotionalCandidates := by
    rw [List.map_map]
    have : (Prod.fst ∘ fun pr : ℕ × ℚ =>
        emotionalCandidate t d p fee sqrt rand pr.1 pr.2) = Prod.snd := by
      funext pr
      rfl
    rw [this, List.enum_map_snd]
  rcases sweepBestE_mem (emotionalCandidates.enum.map fun pr =>
      emotionalCandidate t d p fee sqrt rand pr.1 pr.2) ⟨1 / 2, none, ⟨0, 0, 0, 0, 0⟩⟩ with
    h | h
  · right
    rw [hr, h]
  · left
    rw [hmap] at h
    rw [hr]
    exact h

/-- A zero desired consolation yields zero shares and premium and makes every
outcome of the consolation calculator equal to the sunk ticket cost. -/
lemma calculateEmotionalHedging_zero_consolation (t r p f : ℚ) :
    calculateEmotionalHedging t 0 r p f = ⟨0, 0, -t, -t, -t, -t⟩ := by
  rw [calculateEmotionalHedging]
  norm_num

/-- The inline standard deviation of a constant sample is the square root of
zero. -/
lemma stdDevOf_const (sqrt : ℚ → ℚ) (n : ℕ) (hn : 0 < n) (c : ℚ) :
    stdDevOf sqrt (List.replicate n c) = sqrt 0 := by
  have hmean : (statsOf (List.replicate n c)).mean = c := (statsOf_replicate n hn c).1
  rw [stdDevOf, hmean, List.map_replicate]
  simp

/-- With a zero desired consolation every simulated outcome equals the ticket
cost, both standard deviations are the square root of zero, and — when the
square-root routine sends 0 to 0 as the source's Math.sqrt does — the
unguarded volatility division is 0/0: the candidate risk score is NaN. -/
lemma emotionalCandidate_score_none (t p fee ratio : ℚ) (sqrt : ℚ → ℚ)
    (rand : ℕ → ℕ → ℚ) (idx : ℕ) (hs : sqrt 0 = 0) :
    (emotionalCandidate t 0 p fee sqrt rand idx ratio).2.1 = none := by
  have hH : ((List.range 1000).map fun i =>
      if rand idx i < p then (calculateEmotionalHedging t 0 ratio p fee).outcomeIfTeamLoses
      else (calculateEmotionalHedging t 0 ratio p fee).outcomeIfTeamWins) =
      List.replicate 1000 (-t) := by
    rw [calculateEmotionalHedging_zero_consolation]
    simp
  have hU : ((List.range 1000).map fun i =>
      if rand idx i < p then
        (calculateEmotionalHedging t 0 ratio p fee).unhedgedOutcomeIfTeamLoses
      else (calculateEmotionalHedging t 0 ratio p fee).unhedgedOutcomeIfTeamWins) =
      List.replicate 1000 (-t) := by
    rw [calculateEmotionalHedging_zero_consolation]
    simp
  show (if stdDevOf sqrt ((List.range 1000).map fun i =>
        if rand idx i < p then
          (calculateEmotionalHedging t 0 ratio p fee).unhedgedOutcomeIfTeamLoses
        else (calculateEmotionalHedging t 0 ratio p fee).unhedgedOutcomeIfTeamWins) = 0 ∧
      stdDevOf sqrt ((List.range 1000).map fun i =>
        if rand idx i < p then
          (calculateEmotionalHedging t 0 ratio p fee).unhedgedOutcomeIfTeamLoses
        else (calculateEmotionalHedging t 0 ratio p fee).unhedgedOutcomeIfTeamWins) -
      stdDevOf sqrt ((List.range 1000).map fun i =>
        if rand idx i < p then (calculateEmotionalHedging t 0 ratio p fee).outcomeIfTeamLoses
        else (calculateEmotionalHedging t 0 ratio p fee).outcomeIfTeamWins) = 0
      then none
      else some (max 0 _)).map _ = none
  rw [hH, hU, stdDevOf_const sqrt 1000 (by norm_num) (-t), hs]
  norm_num

/-- With a zero desired consolation every candidate of the emotional sweep
scores NaN in the exact model, so the optimizer returns the initial ratio 0.5
and the -Infinity sentinel risk score unchanged.  The binary64 source matches
this whenever the repeated outcome sums without rounding — an integer ticket
cost, say — so the claim theorem instantiates the ticket cost at 1. -/
lemma findOptimalEmotionalHedgeRatio_zero_consolation (t p fee : ℚ) (sqrt : ℚ → ℚ)
    (rand : ℕ → ℕ → ℚ) (hs : sqrt 0 = 0) :
    (findOptimalEmotionalHedgeRatio t 0 p fee sqrt rand).optimalRatio = 1 / 2 ∧
    (findOptimalEmotionalHedgeRatio t 0 p fee sqrt rand).riskScore = none := by
  have hall : ∀ c ∈ (emotionalCandidates.enum.map fun pr =>
      emotionalCandidate t 0 p fee sqrt rand pr.1 pr.2), c.2.1 = none := by
    intro c hc
    obtain ⟨pr, _, rfl⟩ := List.mem_map.mp hc
    exact emotionalCandidate_score_none t p fee pr.2 sqrt rand pr.1 hs
  have hacc := sweepBestE_all_none (emotionalCandidates.enum.map fun pr =>
    emotionalCandidate t 0 p fee sqrt rand pr.1 pr.2) ⟨1 / 2, none, ⟨0, 0, 0, 0, 0⟩⟩ hall
  constructor
  · show (sweepBestE (emotionalCandidates.enum.map fun pr =>
      emotionalCandidate t 0 p fee sqrt rand pr.1 pr.2)
      ⟨1 / 2, none, ⟨0, 0, 0, 0, 0⟩⟩).bestRatio = 1 / 2
    rw [hacc]
  · show (sweepBestE (emotionalCandidates.enum.map fun pr =>
      emotionalCandidate t 0 p fee sqrt rand pr.1 pr.2)
      ⟨1 / 2, none, ⟨0, 0, 0, 0, 0⟩⟩).bestRiskScore = none
    rw [hacc]

/-- C1 : for valid inputs and every draw stream and square-root routine,
findOptimalHedgeRatio returns optimalRatio in [0, 1] and winPercentage in
[0, 100], and the returned riskScore is the maximum of the composite scores
of the swept candidates i / steps, hence at least the score of candidate 0. -/
theorem c1_findOptimalHedgeRatio_bounds (b a p : ℚ) (months : ℕ) (fee : ℚ)
    (steps runs : ℕ) (sqrt : ℚ → ℚ) (rand : ℕ → ℕ → ℕ → ℚ)
    (hb : 0 < b) (ha : 0 < a) (hp : 0 < p) (hp1 : p < 1) (hsteps : 0 < steps)
    (hruns : 0 < runs) :
    0 ≤ (findOptimalHedgeRatio b a p months fee steps runs sqrt rand).optimalRatio ∧
    (findOptimalHedgeRatio b a p months fee steps runs sqrt rand).optimalRatio ≤ 1 ∧
    0 ≤ (findOptimalHedgeRatio b a p months fee steps runs sqrt rand).winPercentage ∧
    (findOptimalHedgeRatio b a p months fee steps runs sqrt rand).winPercentage ≤ 100 ∧
    (∃ i ≤ steps, (findOptimalHedgeRatio b a p months fee steps runs sqrt rand).riskScore =
      (optimalCandidate b a p months fee steps runs sqrt rand i).2.1) ∧
    (∀ i ≤ steps, (optimalCandidate b a p months fee steps runs sqrt rand i).2.1 ≤
      (findOptimalHedgeRatio b a p months fee steps runs sqrt rand).riskScore) ∧
    (optimalCandidate b a p months fee steps runs sqrt rand 0).2.1 ≤
      (findOptimalHedgeRatio b a p months fee steps runs sqrt rand).riskScore := by
  obtain ⟨i, hi, hratio, hscore, hwin, hmax, hfirst⟩ :=
    findOptimalHedgeRatio_spec b a p months fee steps runs sqrt rand
  have hstepsq : (0 : ℚ) < (steps : ℚ) := by exact_mod_cast hsteps
  have hwinb := winPct_bounds
    (optimalCandidate_wins_le b a p months fee runs ((i : ℚ) / (steps : ℚ)) (rand (i + 1)))
    hruns
  refine ⟨?_, ?_, ?_, ?_, ⟨i, hi, hscore⟩, ?_, ?_⟩
  · rw [hratio]
    positivity
  · rw [hratio]
    rw [div_le_one hstepsq]
    exact_mod_cast hi
  · rw [hwin, optimalCandidate_winPercentage]
    exact hwinb.1
  · rw [hwin, optimalCandidate_winPercentage]
    exact hwinb.2
  · intro j hj
    rw [hscore]
    exact hmax j hj
  · rw [hscore]
    exact hmax 0 (Nat.zero_le steps)

/-- C1 witness instance at concrete valid inputs. -/
theorem c1_witness :
    0 ≤ (findOptimalHedgeRatio 1 2 (1 / 2) 1 0 1 1 (fun q => q)
      (fun _ _ _ => 0)).optimalRatio ∧
    (findOptimalHedgeRatio 1 2 (1 / 2) 1 0 1 1 (fun q => q)
      (fun _ _ _ => 0)).optimalRatio ≤ 1 ∧
    (optimalCandidate 1 2 (1 / 2) 1 0 1 1 (fun q => q) (fun _ _ _ => 0) 0).2.1 ≤
      (findOptimalHedgeRatio 1 2 (1 / 2) 1 0 1 1 (fun q => q)
        (fun _ _ _ => 0)).riskScore := by
  have h := c1_findOptimalHedgeRatio_bounds 1 2 (1 / 2) 1 0 1 1 (fun q => q)
    (fun _ _ _ => 0) (by norm_num) (by norm_num) (by norm_num) (by norm_num)
    (by norm_num) (by norm_num)
  exact ⟨h.1, h.2.1, h.2.2.2.2.2.2⟩

/-- C6 : the optimizer keeps a candidate only on strictly greater risk score:
the returned ratio is the earliest candidate attaining the maximal score, and
when every candidate scores identically the returned ratio is candidate 0,
that is ratio 0. -/
theorem c6_strict_update_tiebreak (b a p : ℚ) (months : ℕ) (fee : ℚ)
    (steps runs : ℕ) (sqrt : ℚ → ℚ) (rand : ℕ → ℕ → ℕ → ℚ) (hsteps : 0 < steps) :
    (∃ i ≤ steps,
      (findOptimalHedgeRatio b a p months fee steps runs sqrt rand).optimalRatio =
        (i : ℚ) / (steps : ℚ) ∧
      (findOptimalHedgeRatio b a p months fee steps runs sqrt rand).riskScore =
        (optimalCandidate b a p months fee steps runs sqrt rand i).2.1 ∧
      (∀ j ≤ steps, (optimalCandidate b a p months fee steps runs sqrt rand j).2.1 ≤
        (optimalCandidate b a p months fee steps runs sqrt rand i).2.1) ∧
      (∀ j < i, (optimalCandidate b a p months fee steps runs sqrt rand j).2.1 <
        (optimalCandidate b a p months fee steps runs sqrt rand i).2.1)) ∧
    ((∀ j ≤ steps, (optimalCandidate b a p months fee steps runs sqrt rand j).2.1 =
        (optimalCandidate b a p months fee steps runs sqrt rand 0).2.1) →
      (findOptimalHedgeRatio b a p months fee steps runs sqrt rand).optimalRatio = 0) := by
  obtain ⟨i, hi, hratio, hscore, hwin, hmax, hfirst⟩ :=
    findOptimalHedgeRatio_spec b a p months fee steps runs sqrt rand
  refine ⟨⟨i, hi, hratio, hscore, hmax, hfirst⟩, ?_⟩
  intro hall
  have hi0 : i = 0 := by
    by_contra h
    have h0 := hfirst 0 (Nat.pos_of_ne_zero h)
    rw [hall i hi] at h0
    exact lt_irrefl _ h0
  rw [hratio, hi0]
  norm_num

/-- C6 witness instance at concrete inputs. -/
theorem c6_witness :
    ∃ i : ℕ, i ≤ 1 ∧
      (findOptimalHedgeRatio 1 2 (1 / 2) 1 0 1 1 (fun q => q)
        (fun _ _ _ => 0)).optimalRatio = (i : ℚ) / ((1 : ℕ) : ℚ) ∧
      (findOptimalHedgeRatio 1 2 (1 / 2) 1 0 1 1 (fun q => q)
        (fun _ _ _ => 0)).riskScore =
        (optimalCandidate 1 2 (1 / 2) 1 0 1 1 (fun q => q) (fun _ _ _ => 0) i).2.1 ∧
      (∀ j ≤ 1, (optimalCandidate 1 2 (1 / 2) 1 0 1 1 (fun q => q) (fun _ _ _ => 0) j).2.1 ≤
        (optimalCandidate 1 2 (1 / 2) 1 0 1 1 (fun q => q) (fun _ _ _ => 0) i).2.1) ∧
      (∀ j < i, (optimalCandidate 1 2 (1 / 2) 1 0 1 1 (fun q => q) (fun _ _ _ => 0) j).2.1 <
        (optimalCandidate 1 2 (1 / 2) 1 0 1 1 (fun q => q) (fun _ _ _ => 0) i).2.1) :=
  (c6_strict_update_tiebreak 1 2 (1 / 2) 1 0 1 1 (fun q => q) (fun _ _ _ => 0)
    (by norm_num)).1

/-- C9 counterexample: the emotional sweep visits 18 candidates; the ratio 1
is never evaluated (binary64 accumulation overshoots 1 first) and even the
nominal grid point 0.15 is not hit exactly. -/
theorem c9_counterexample :
    emotionalCandidates.length = 18 ∧ (1 : ℚ) ∉ emotionalCandidates ∧
      (3 / 20 : ℚ) ∉ emotionalCandidates := by
  rw [emotionalCandidates_eq]
  norm_num

/-- C9 (amended) : findOptimalEmotionalHedgeRatio sweeps the 18 binary64 loop
values starting at the double nearest 0.1 and stepping by the double nearest
0.05; each visited value is within 1e-15 of the nominal grid 0.1, 0.15, ...,
0.95 and the candidate 1.0 is never evaluated.  The returned optimalRatio is
one of the 18 swept candidates or the untouched initial ratio 0.5, which is
itself not a swept candidate: a candidate is adopted only when its risk score
is a number, and with a unit ticket cost and zero desired consolation every
outcome is exactly -1, both standard deviations vanish, the unguarded
volatility division is 0/0 for every candidate, so no update fires and the
initial ratio and the -Infinity sentinel score are returned. -/
theorem c9_emotional_sweep (t d p fee : ℚ) (sqrt : ℚ → ℚ) (rand : ℕ → ℕ → ℚ) :
    emotionalCandidates.length = 18 ∧
    List.Forall₂ (fun c g => |c - g| ≤ 1 / 10 ^ 15) emotionalCandidates
      [1 / 10, 3 / 20, 1 / 5, 1 / 4, 3 / 10, 7 / 20, 2 / 5, 9 / 20, 1 / 2, 11 / 20,
        3 / 5, 13 / 20, 7 / 10, 3 / 4, 4 / 5, 17 / 20, 9 / 10, 19 / 20] ∧
    (1 : ℚ) ∉ emotionalCandidates ∧
    ((findOptimalEmotionalHedgeRatio t d p fee sqrt rand).optimalRatio ∈
        emotionalCandidates ∨
      (findOptimalEmotionalHedgeRatio t d p fee sqrt rand).optimalRatio = 1 / 2) ∧
    (1 / 2 : ℚ) ∉ emotionalCandidates ∧
    (sqrt 0 = 0 →
      (findOptimalEmotionalHedgeRatio 1 0 p fee sqrt rand).optimalRatio = 1 / 2 ∧
      (findOptimalEmotionalHedgeRatio 1 0 p fee sqrt rand).riskScore = none) := by
  refine ⟨?_, ?_, ?_, findOptimalEmotionalHedgeRatio_mem_or_init t d p fee sqrt rand, ?_,
    fun hs => findOptimalEmotionalHedgeRatio_zero_consolation 1 p fee sqrt rand hs⟩
  · rw [emotionalCandidates_eq]
    rfl
  · rw [emotionalCandidates_eq]
    norm_num [List.forall₂_cons, abs_le]
  · rw [emotionalCandidates_eq]
    norm_num
  · rw [emotionalCandidates_eq]
    norm_num

/-- C9 witness instance: at desired consolation 0 (with the identity as the
square-root routine, which fixes 0 like the source's Math.sqrt) the emotional
optimizer returns the non-swept initial ratio 0.5 and the sentinel score. -/
theorem c9_witness :
    (findOptimalEmotionalHedgeRatio 1 0 (1 / 2) (1 / 100) (fun q => q)
      (fun _ _ => 0)).optimalRatio = 1 / 2 ∧
    (findOptimalEmotionalHedgeRatio 1 0 (1 / 2) (1 / 100) (fun q => q)
      (fun _ _ => 0)).riskScore = none :=
  (c9_emotional_sweep 1 0 (1 / 2) (1 / 100) (fun q => q) (fun _ _ => 0)).2.2.2.2.2 rfl
